import Mathlib

/-!
Verification development for the Neon Dodge per-frame simulation engine
(`neon_dodge.py`).  The engine is shallowly embedded: positions, velocities
and timers are exact rationals; randomness and the irrational geometric
primitives of the source (vector normalisation, `sin`/`cos`) are supplied by
an explicit environment `Env`, so every theorem quantifies over all possible
draws.  Machine floats matter only in the shop's cost inflation
(`int(cost * 1.4) + 1`), which is modelled bit-exactly for IEEE doubles.
-/

namespace NeonDodge

/-! ## Geometry and math utilities -/

/-- 2D vector over exact rationals (source: `pygame.math.Vector2`). -/
structure V2 where
  x : ℚ
  y : ℚ
deriving DecidableEq, Repr

instance : Add V2 := ⟨fun a b => ⟨a.x + b.x, a.y + b.y⟩⟩
instance : Sub V2 := ⟨fun a b => ⟨a.x - b.x, a.y - b.y⟩⟩

/-- Scalar multiple of a vector. -/
def V2.smul (v : V2) (c : ℚ) : V2 := ⟨v.x * c, v.y * c⟩

/-- Squared length (source: `length_squared`). -/
def V2.lensq (v : V2) : ℚ := v.x * v.x + v.y * v.y

/-- Source: `clamp(x, lo, hi) = max(lo, min(hi, x))`. -/
def clamp (x lo hi : ℚ) : ℚ := max lo (min hi x)

/-- Squared distance between two points (source: `distance_squared_to`). -/
def dist_sq (a b : V2) : ℚ := (a.x - b.x) * (a.x - b.x) + (a.y - b.y) * (a.y - b.y)

/-- Source: `circle_collision` — overlap test on squared distance. -/
def circle_collision (a_pos : V2) (a_r : ℚ) (b_pos : V2) (b_r : ℚ) : Bool :=
  decide (dist_sq a_pos b_pos ≤ (a_r + b_r) * (a_r + b_r))

/-! ## Config constants (source: module-level constants; the arena size is
the module default 900×600) -/

def WIDTH : ℚ := 900
def HEIGHT : ℚ := 600
def PLAYER_BASE_SPEED : ℚ := 320
def PLAYER_RADIUS : ℚ := 20
def PLAYER_IFRAMES : ℚ := 1
def PLAYER_FRICTION : ℚ := 10
def ENEMY_BASE_SPEED : ℚ := 120
def ENEMY_RADIUS : ℚ := 16
def ENEMY_SPAWN_COOLDOWN : ℚ := 2/5
def ENEMY_MAX : ℕ := 50
def ORB_RADIUS : ℚ := 8
def ORB_SCORE : ℤ := 10
def KILL_SCORE : ℤ := 5
def BOSS_KILL_SCORE : ℤ := 50
def BULLET_RADIUS : ℚ := 4
def BULLET_SPEED : ℚ := 520
def BULLET_LIFETIME : ℚ := 2
def BULLET_BASE_DMG : ℤ := 1
def FIRE_COOLDOWN : ℚ := 7/20
def ENEMY_BULLET_SPEED : ℚ := 300
def POWERUP_RADIUS : ℚ := 12
def POWERUP_DURATION : ℚ := 10
def SHIELD_RECHARGE_RATE : ℚ := 1
def LIVES_START : ℤ := 3
def COINS_NORMAL_MIN : ℕ := 1
def COINS_NORMAL_MAX : ℕ := 3
def COINS_BOSS_MIN : ℕ := 15
def COINS_BOSS_MAX : ℕ := 25
def XP_KILL : ℕ := 20
def XP_BOSS_KILL : ℕ := 100
def XP_ORB : ℕ := 5

/-- Source: `DIFF_SPAWN_MULT = [1.5, 1.0, 0.7]`, indexed by the difficulty. -/
def DIFF_SPAWN_MULT : Fin 3 → ℚ := ![3/2, 1, 7/10]

/-- Python's `int()` on a real value: truncation toward zero. -/
def pyInt (q : ℚ) : ℤ := if 0 ≤ q then ⌊q⌋ else ⌈q⌉

/-! ## Player -/

/-- Source: dataclass `Player`. -/
structure Player where
  pos : V2
  vel : V2 := ⟨0, 0⟩
  radius : ℚ := PLAYER_RADIUS
  base_speed : ℚ := PLAYER_BASE_SPEED
  speed_mult : ℚ := 1
  iframes : ℚ := 0
  fire_timer : ℚ := 0
  fire_cooldown : ℚ := FIRE_COOLDOWN
  spread_level : ℕ := 0
  pierce : ℕ := 0
  damage : ℤ := BULLET_BASE_DMG
  shield_time : ℚ := 0
  has_shield : Bool := false
  level : ℕ := 1
  xp : ℕ := 0
deriving DecidableEq, Repr

/-- Source: `Player.speed`. -/
def Player.speed (p : Player) : ℚ := p.base_speed * p.speed_mult

/-- Source: `Player.xp_to_next`. -/
def Player.xp_to_next (p : Player) : ℕ := 100 * p.level

/-- The `while xp >= xp_to_next` loop of `Player.gain_xp`.  The level rises
each iteration, so at most `xp + 2` iterations can fire; the fuel argument
makes that bound explicit and the recursion structural. -/
def levelLoop : ℕ → Player → Player
  | 0, p => p
  | fuel + 1, p =>
    if 100 * p.level ≤ p.xp then
      levelLoop fuel { p with xp := p.xp - 100 * p.level, level := p.level + 1 }
    else p

/-- Source: `Player.gain_xp`. -/
def Player.gain_xp (p : Player) (amount : ℕ) : Player :=
  levelLoop (p.xp + amount + 2) { p with xp := p.xp + amount }

/-! ## Other entities -/

/-- Source: `EnemyType` enum. -/
inductive EnemyType where
  | NORMAL | ZIGZAG | HOMING | BOSS | MEGA_BOSS
deriving DecidableEq, Repr

/-- Source: dataclass `Enemy`.  `hp` is a Python int, hence `ℤ`. -/
structure Enemy where
  pos : V2
  vel : V2
  speed : ℚ
  etype : EnemyType := .NORMAL
  radius : ℚ := ENEMY_RADIUS
  hp : ℤ := 1
  is_boss : Bool := false
  tier : ℕ := 0
  dash_cd : ℚ := 0
  shoot_cd : ℚ := 0
  boss_kind : ℕ := 0
  zigzag_phase : ℚ := 0
deriving DecidableEq, Repr

/-- Source: dataclass `Orb`. -/
structure Orb where
  pos : V2
  radius : ℚ := ORB_RADIUS
deriving DecidableEq, Repr

/-- Source: dataclass `Bullet`. -/
structure Bullet where
  pos : V2
  vel : V2
  radius : ℚ := BULLET_RADIUS
  lifetime : ℚ := BULLET_LIFETIME
  pierce : ℕ := 0
  dmg : ℤ := BULLET_BASE_DMG
  from_enemy : Bool := false
  homing : Bool := false
deriving DecidableEq, Repr

/-- Source: `Bullet.update`. -/
def Bullet.update (b : Bullet) (dt : ℚ) : Bullet :=
  { b with pos := b.pos + b.vel.smul dt, lifetime := b.lifetime - dt }

/-- Source: `Bullet.alive` — lifetime positive and inside a 20px margin. -/
def Bullet.alive (b : Bullet) : Bool :=
  if b.lifetime ≤ 0 then false
  else decide (-20 ≤ b.pos.x ∧ b.pos.x ≤ WIDTH + 20 ∧ -20 ≤ b.pos.y ∧ b.pos.y ≤ HEIGHT + 20)

/-- Source: dataclass `Particle` (purely cosmetic). -/
structure Particle where
  pos : V2
  vel : V2
  radius : ℚ
  life : ℚ
  full_life : ℚ
deriving DecidableEq, Repr

/-- Source: `Particle.update`. -/
def Particle.update (p : Particle) (dt : ℚ) : Particle :=
  { p with pos := p.pos + p.vel.smul dt, life := p.life - dt }

/-- Source: `Particle.alive`. -/
def Particle.alive (p : Particle) : Bool := decide (0 < p.life)

/-- Source: `PUType` enum. -/
inductive PUType where
  | RAPID | SPREAD | SHIELD | SPEED | PIERCE
deriving DecidableEq, Repr

/-- Source: dataclass `PowerUp`. -/
structure PowerUp where
  pos : V2
  kind : PUType
  radius : ℚ := POWERUP_RADIUS
deriving DecidableEq, Repr

/-- Source: `GameState` constants (the top-level mode). -/
inductive GState where
  | TITLE | PLAYING | GAME_OVER | SETTINGS
deriving DecidableEq, Repr

/-! ## Environment

A frame of the source consumes key state and many `random.*` draws, and uses
the irrational primitives `normalize`, `sin`, `cos`.  All of these are
inputs of the embedding: one `Env` value fixes every draw of one frame.
Per-enemy and per-bullet draws are indexed by the entity's position in its
list. -/

structure Env where
  /-- Raw directional key intent (source: `dir_x`, `dir_y` from held keys). -/
  keysDir : V2 := ⟨0, 0⟩
  /-- `v.normalize()` for a nonzero vector `v` (unit-length in the source). -/
  unitOf : V2 → V2 := fun _ => ⟨0, 0⟩
  /-- `math.sin` (zigzag lateral offset). -/
  msin : ℚ → ℚ := fun _ => 0
  /-- `math.cos`/`math.sin` of the spread angles in degrees (`math.radians`). -/
  rotCos : ℚ → ℚ := fun _ => 1
  rotSin : ℚ → ℚ := fun _ => 0
  /-- `cos`/`sin` of the 8 mega-boss ring angles `k·τ/8`. -/
  ringCos : ℕ → ℚ := fun _ => 1
  ringSin : ℕ → ℚ := fun _ => 0
  /-- Per-enemy steering jitter pair `uniform(-1,1)²` (index in enemy list). -/
  jitter : ℕ → V2 := fun _ => ⟨0, 0⟩
  /-- Per-enemy dash cooldown re-roll `uniform(1.5, 3.0)`. -/
  dashRe : ℕ → ℚ := fun _ => 2
  /-- Per-enemy shoot cooldown re-roll. -/
  shootRe : ℕ → ℚ := fun _ => 2
  /-- `randint(COINS_NORMAL_MIN, COINS_NORMAL_MAX)` for a killed enemy. -/
  coinNormal : Enemy → ℕ := fun _ => 1
  /-- `randint(COINS_BOSS_MIN, COINS_BOSS_MAX)` for a killed boss. -/
  coinBoss : Enemy → ℕ := fun _ => 15
  /-- The 20 random particles of `_spawn_explosion` at a kill. -/
  explosion : Enemy → List Particle := fun _ => []
  /-- `_spawn_enemy` draws: side, edge offset, speed multiplier, tier,
  enemy type, shoot/zigzag/dash cooldowns, and the spawn-timer re-roll. -/
  spawnSide : ℕ := 0
  spawnOff : ℚ := 100
  spawnSpeedMult : ℚ := 1
  spawnTier : ℕ := 0
  spawnType : ℕ := 0
  spawnShoot : ℚ := 3
  spawnZig : ℚ := 0
  spawnDash : ℚ := 2
  spawnRe : ℚ := 1
  /-- `_spawn_boss` draws. -/
  bossKind : ℕ := 0
  bossOff : ℚ := 400
  bossShoot : ℚ := 2
  bossDash : ℚ := 2
  /-- `_spawn_orb` result (uniform interior position in the source). -/
  newOrb : Orb := ⟨⟨450, 300⟩, ORB_RADIUS⟩
  /-- `_spawn_powerup` draws and the power-up timer re-roll. -/
  puKind : ℕ := 0
  puPos : V2 := ⟨100, 100⟩
  puRe : ℚ := 12

/-! ## Player.update -/

/-- Source: `Player.update(dt, keys)` — exponential velocity smoothing,
integration, clamping to the arena, and linear timer decay.  The resolved
key direction and its normalisation come from the environment. -/
def Player.update (p : Player) (env : Env) (dt : ℚ) : Player :=
  let move : V2 :=
    if 0 < env.keysDir.lensq then (env.unitOf env.keysDir).smul p.speed else ⟨0, 0⟩
  let vel := p.vel + (move - p.vel).smul (clamp (PLAYER_FRICTION * dt) 0 1)
  let pos0 := p.pos + vel.smul dt
  let pos : V2 := ⟨clamp pos0.x p.radius (WIDTH - p.radius),
                   clamp pos0.y p.radius (HEIGHT - p.radius)⟩
  let iframes := if 0 < p.iframes then max 0 (p.iframes - dt) else p.iframes
  let shield_time :=
    if p.has_shield ∧ p.shield_time < POWERUP_DURATION then
      min POWERUP_DURATION (p.shield_time + SHIELD_RECHARGE_RATE * dt)
    else p.shield_time
  { p with vel := vel, pos := pos, iframes := iframes, shield_time := shield_time,
           fire_timer := max 0 (p.fire_timer - dt) }

/-! ## Enemy.update and the per-enemy frame step -/

/-- Source: `Enemy.update(dt, player_pos)` — steering toward the player with
jitter, smoothing, integration, wall reflection, clamping, and the tier ≥ 1
dash impulse. -/
def Enemy.update (e : Enemy) (env : Env) (i : ℕ) (dt : ℚ) (player_pos : V2) : Enemy :=
  let to_player := player_pos - e.pos
  let desired : V2 :=
    if 1/10000 < to_player.lensq then (env.unitOf to_player).smul e.speed else ⟨0, 0⟩
  let jitter := (env.jitter i).smul (e.speed * (if e.is_boss then 3/20 else 1/4))
  let steer := desired + jitter
  let vel1 := e.vel + (steer - e.vel).smul (clamp ((if e.is_boss then 2 else 4) * dt) 0 1)
  let pos1 := e.pos + vel1.smul dt
  let vel2 : V2 :=
    if (pos1.x < e.radius ∧ vel1.x < 0) ∨ (WIDTH - e.radius < pos1.x ∧ 0 < vel1.x) then
      ⟨-vel1.x, vel1.y⟩ else vel1
  let vel3 : V2 :=
    if (pos1.y < e.radius ∧ vel2.y < 0) ∨ (HEIGHT - e.radius < pos1.y ∧ 0 < vel2.y) then
      ⟨vel2.x, -vel2.y⟩ else vel2
  let pos2 : V2 := ⟨clamp pos1.x e.radius (WIDTH - e.radius),
                    clamp pos1.y e.radius (HEIGHT - e.radius)⟩
  if 1 ≤ e.tier then
    let dash1 := e.dash_cd - dt
    if dash1 ≤ 0 then
      let vel4 := if 0 < to_player.lensq then
          vel3 + (env.unitOf to_player).smul (e.speed * (3/2 + (e.tier : ℚ)/2))
        else vel3
      { e with pos := pos2, vel := vel4, dash_cd := env.dashRe i }
    else { e with pos := pos2, vel := vel3, dash_cd := dash1 }
  else { e with pos := pos2, vel := vel3 }

/-- The kind-specific behaviour layered on `Enemy.update` inside
`Game.update_play`'s enemy loop (zigzag offset, homing / mega-boss / aimed
shots).  Returns the updated enemy and the bullets it fired this frame. -/
def enemyKindStep (env : Env) (dt : ℚ) (player_pos : V2) (i : ℕ) (e : Enemy) :
    Enemy × List Bullet :=
  match e.etype with
  | .ZIGZAG =>
    let phase := e.zigzag_phase + dt * 4
    let perp : V2 := ⟨-e.vel.y, e.vel.x⟩
    let pos := if 0 < perp.lensq then
        e.pos + (env.unitOf perp).smul (env.msin phase * (e.speed * (1/2) * dt))
      else e.pos
    ({ e with zigzag_phase := phase, pos := pos }, [])
  | .HOMING =>
    let cd := e.shoot_cd - dt
    if cd ≤ 0 then
      let toP := player_pos - e.pos
      let dir : V2 := if 0 < toP.lensq then env.unitOf toP else ⟨0, 1⟩
      ({ e with shoot_cd := env.shootRe i },
       [{ pos := e.pos + dir.smul (e.radius + 4), vel := dir.smul (ENEMY_BULLET_SPEED * (4/5)),
          dmg := 1, from_enemy := true, homing := true }])
    else ({ e with shoot_cd := cd }, [])
  | .MEGA_BOSS =>
    let cd := e.shoot_cd - dt
    if cd ≤ 0 then
      let ring := (List.range 8).map fun k =>
        ({ pos := e.pos, vel := (⟨env.ringCos k, env.ringSin k⟩ : V2).smul (ENEMY_BULLET_SPEED * (3/5)),
           dmg := 2, from_enemy := true } : Bullet)
      let toP := player_pos - e.pos
      let dir : V2 := if 0 < toP.lensq then env.unitOf toP else ⟨0, 1⟩
      ({ e with shoot_cd := env.shootRe i },
       ring ++ [{ pos := e.pos, vel := dir.smul (ENEMY_BULLET_SPEED * (4/5)),
                  dmg := 2, from_enemy := true, homing := true }])
    else ({ e with shoot_cd := cd }, [])
  | _ =>
    if 2 ≤ e.tier ∨ (e.is_boss ∧ e.boss_kind = 1) then
      let cd := e.shoot_cd - dt
      if cd ≤ 0 then
        let toP := player_pos - e.pos
        let dir : V2 := if 0 < toP.lensq then env.unitOf toP else ⟨0, 1⟩
        ({ e with shoot_cd := env.shootRe i },
         [{ pos := e.pos + dir.smul (e.radius + 4), vel := dir.smul ENEMY_BULLET_SPEED,
            dmg := if e.is_boss then 2 else 1, from_enemy := true }])
      else ({ e with shoot_cd := cd }, [])
    else (e, [])

/-- One enemy's whole turn in the enemy loop: base steering update followed
by the kind-specific step. -/
def enemyFrame (env : Env) (dt : ℚ) (player_pos : V2) (i : ℕ) (e0 : Enemy) :
    Enemy × List Bullet :=
  enemyKindStep env dt player_pos i (e0.update env i dt player_pos)

/-! ## Game state -/

/-- Source: the gameplay fields of class `Game` (rendering, audio and
persistence collaborators are out of scope; the persisted scalars that feed
the simulation — high score and difficulty index — are kept). -/
structure Game where
  state : GState := .PLAYING
  t : ℚ := 0
  high_score : ℤ := 0
  difficulty_idx : Fin 3 := 1
  player : Player
  enemies : List Enemy := []
  orb : Orb
  score : ℤ := 0
  lives : ℤ := LIVES_START
  spawn_timer : ℚ := 0
  diff_timer : ℚ := 0
  enemy_speed : ℚ := ENEMY_BASE_SPEED
  max_enemies : ℕ := 3
  enemy_level : ℕ := 0
  shake : ℚ := 0
  bullets : List Bullet := []
  particles : List Particle := []
  powerups : List PowerUp := []
  pu_spawn_timer : ℚ := 12
  rapid_time : ℚ := 0
  speed_time : ℚ := 0
  spread_time : ℚ := 0
  pierce_time : ℚ := 0
  coins : ℕ := 0
  kills : ℕ := 0
  shop_open : Bool := false
  costs : Fin 6 → ℕ := ![25, 30, 30, 40, 45, 25]
  boss_timer : ℚ := 20

/-- Source: `Game.reset` (plus the initial run state of `__init__`): fresh
player at the arena centre, empty collections, run-initial scalars.  The
elapsed clock `t`, high score and difficulty survive a reset. -/
def resetGame (t : ℚ) (hs : ℤ) (di : Fin 3) (orb : Orb) (puT : ℚ) : Game :=
  { state := .PLAYING, t := t, high_score := hs, difficulty_idx := di,
    player := { pos := ⟨WIDTH/2, HEIGHT/2⟩ }, orb := orb, pu_spawn_timer := puT }

/-- Source: `Game._has_boss`. -/
def hasBoss (es : List Enemy) : Bool := es.any (·.is_boss)

/-- Number of boss-flagged enemies in a list. -/
def countBosses (es : List Enemy) : ℕ := (es.filter (·.is_boss)).length

/-! ## Shop logic

`Game._inflate_cost` computes `int(cost * 1.4) + 1` in Python, where `1.4`
is the IEEE double `6305039478318694 · 2⁻⁵²` and the product is rounded to
nearest-even double before truncation.  The rounding is modelled bit-exactly
on naturals (`cost ≤ 999 < 2¹⁰`, so the product fits well within the range
where this model is the double semantics). -/

/-- Number of bits of `n` (`n < 2^64`); fuel keeps the recursion structural. -/
def bitLenAux : ℕ → ℕ → ℕ
  | 0, _ => 0
  | fuel + 1, n => if n = 0 then 0 else bitLenAux fuel (n / 2) + 1

def bitLen (n : ℕ) : ℕ := bitLenAux 64 n

/-- Round `v` to 53 significant bits, ties to even — the IEEE rounding of the
exact product `v · 2⁻⁵²` to a double, returned as (mantissa · 2^excess). -/
def roundNearestEven (v : ℕ) : ℕ :=
  let b := bitLen v
  if b ≤ 53 then v
  else
    let p := 2 ^ (b - 53)
    let q := v / p
    let r := v % p
    if 2 * r < p then q * p
    else if p < 2 * r then (q + 1) * p
    else if q % 2 = 0 then q * p else (q + 1) * p

/-- The mantissa of the IEEE double nearest to 1.4: `1.4 ≈ FLOAT14_NUM · 2⁻⁵²`. -/
def FLOAT14_NUM : ℕ := 6305039478318694

/-- `int(cost * 1.4)` in Python: double product, truncated toward zero. -/
def intMul14 (cost : ℕ) : ℕ := roundNearestEven (cost * FLOAT14_NUM) / 2 ^ 52

/-- Source: `Game._inflate_cost`. -/
def inflate_cost (cost : ℕ) : ℕ := intMul14 cost + 1

/-- The six upgrade effects, in the order of the `self.upgrades` table
(`_buy_damage` … `_buy_shield`). -/
def applyUpgrade : ℕ → Player → Player
  | 0, p => { p with damage := p.damage + 1 }
  | 1, p => { p with fire_cooldown := max (2/25) (p.fire_cooldown * (9/10)) }
  | 2, p => { p with base_speed := p.base_speed * (11/10) }
  | 3, p => if p.spread_level < 2 then { p with spread_level := p.spread_level + 1 } else p
  | 4, p => if p.pierce < 3 then { p with pierce := p.pierce + 1 } else p
  | 5, p => { p with has_shield := true, shield_time := POWERUP_DURATION }
  | _, p => p

/-- Source: `Game._buy_if_can(idx)` — in-range index and sufficient coins
debit the wallet, apply the effect once, and inflate the cost (cap 999);
anything else is a no-op (and the Python raises nothing). -/
def buyIfCan (idx : ℤ) (g : Game) : Game :=
  if h : 0 ≤ idx ∧ idx < 6 then
    let i : Fin 6 := ⟨idx.toNat, by omega⟩
    if g.costs i ≤ g.coins then
      { g with coins := g.coins - g.costs i,
               player := applyUpgrade i.1 g.player,
               costs := Function.update g.costs i (min 999 (inflate_cost (g.costs i))) }
    else g
  else g

/-! ## The shared player-hit block

Lines 716–725 (enemy bullet hits player) and 843–852 (enemy body touches
player) of the source are the same code: a fully charged shield is consumed
for a 0.2 s invulnerability, otherwise a life is lost with the full
invulnerability window, dropping to `GAME_OVER` at zero lives. -/

def playerHit (p : Player) (lives : ℤ) (st : GState) : Player × ℤ × ℚ × GState :=
  if POWERUP_DURATION ≤ p.shield_time then
    ({ p with shield_time := 0, iframes := 1/5 }, lives, 8, st)
  else
    ({ p with iframes := PLAYER_IFRAMES }, lives - 1, 12,
     if lives - 1 ≤ 0 then .GAME_OVER else st)

/-! ## Player-bullet sweep

The inner `for e in list(self.enemies)` loop of the combat resolver, for one
player bullet: damage each overlapped enemy in order; a kill removes the
enemy; positive pierce is decremented and the scan continues (resetting
`hit_any`), otherwise the scan breaks with `hit_any` set.  Returns the
remaining enemies, the killed enemies in kill order, and the final
`hit_any` (`true` means the bullet is consumed). -/

structure SweepResult where
  remaining : List Enemy
  killed : List Enemy
  hitAny : Bool
deriving Repr

def bulletSweep (bpos : V2) (brad : ℚ) (dmg : ℤ) (pierce : ℕ) :
    List Enemy → SweepResult
  | [] => ⟨[], [], false⟩
  | e :: rest =>
    if circle_collision bpos brad e.pos e.radius then
      let e' := { e with hp := e.hp - dmg }
      if e'.hp ≤ 0 then
        if 0 < pierce then
          let r := bulletSweep bpos brad dmg (pierce - 1) rest
          ⟨r.remaining, e' :: r.killed, r.hitAny⟩
        else ⟨rest, [e'], true⟩
      else
        if 0 < pierce then
          let r := bulletSweep bpos brad dmg (pierce - 1) rest
          ⟨e' :: r.remaining, r.killed, r.hitAny⟩
        else ⟨e' :: rest, [], true⟩
    else
      let r := bulletSweep bpos brad dmg pierce rest
      ⟨e :: r.remaining, r.killed, r.hitAny⟩

/-! ## The combat resolver (bullet collision loop of `update_play`) -/

/-- Mutable state threaded through the bullet collision loop. -/
structure CombatState where
  enemies : List Enemy
  player : Player
  lives : ℤ
  state : GState
  score : ℤ
  coins : ℕ
  kills : ℕ
  shake : ℚ
  boss_timer : ℚ
  particles : List Particle
  kept : List Bullet

/-- The kill bookkeeping for one removed enemy: kill count, explosion burst,
score / coins / xp reward, shake, and for a boss the boss-timer re-arm
`max(12, 28 - t·0.05)`. -/
def applyReward (env : Env) (t : ℚ) (cs : CombatState) (e : Enemy) : CombatState :=
  let cs := { cs with kills := cs.kills + 1, particles := cs.particles ++ env.explosion e }
  if e.is_boss then
    { cs with score := cs.score + BOSS_KILL_SCORE, coins := cs.coins + env.coinBoss e,
              player := cs.player.gain_xp XP_BOSS_KILL,
              boss_timer := max 12 (28 - t * (1/20)),
              shake := min 10 (cs.shake + 4) }
  else
    { cs with score := cs.score + KILL_SCORE, coins := cs.coins + env.coinNormal e,
              player := cs.player.gain_xp XP_KILL,
              shake := min 10 (cs.shake + 5/2) }

/-- One iteration of the `for b in self.bullets` collision loop: dead bullets
are dropped; an enemy bullet tests the player (shield-or-life arbitration via
`playerHit`) and survives on a miss; a player bullet sweeps the enemy list,
the kill rewards are applied in kill order, and the bullet survives only if
`hit_any` ended false. -/
def processBullet (env : Env) (t : ℚ) (cs : CombatState) (b : Bullet) : CombatState :=
  if ¬ b.alive then cs
  else if b.from_enemy then
    if cs.player.iframes ≤ 0 ∧ circle_collision b.pos b.radius cs.player.pos cs.player.radius then
      let r := playerHit cs.player cs.lives cs.state
      { cs with player := r.1, lives := r.2.1, shake := r.2.2.1, state := r.2.2.2 }
    else { cs with kept := cs.kept ++ [b] }
  else
    let r := bulletSweep b.pos b.radius b.dmg b.pierce cs.enemies
    let cs' := r.killed.foldl (applyReward env t) { cs with enemies := r.remaining }
    if r.hitAny then cs' else { cs' with kept := cs'.kept ++ [b] }

/-- The whole bullet collision phase: fold the loop over `self.bullets` and
commit the surviving bullets (`self.bullets = new_bullets`). -/
def phaseCombat (env : Env) (g : Game) : Game :=
  let cs0 : CombatState :=
    ⟨g.enemies, g.player, g.lives, g.state, g.score, g.coins, g.kills, g.shake,
     g.boss_timer, g.particles, []⟩
  let cs := g.bullets.foldl (processBullet env g.t) cs0
  { g with enemies := cs.enemies, player := cs.player, lives := cs.lives,
           state := cs.state, score := cs.score, coins := cs.coins, kills := cs.kills,
           shake := cs.shake, boss_timer := cs.boss_timer, particles := cs.particles,
           bullets := cs.kept }

/-! ## The remaining phases of `Game.update_play`, in source order -/

/-- `self.player.update(dt, keys)` and the starfield (the latter is
rendering-only and not modelled). -/
def phasePlayer (env : Env) (dt : ℚ) (g : Game) : Game :=
  { g with player := g.player.update env dt }

/-- `self.enemy_level = min(2, int(self.t // 30))`. -/
def phaseLevel (g : Game) : Game :=
  { g with enemy_level := min 2 (⌊g.t / 30⌋).toNat }

/-- Source: the `min(self.enemies, key=distance_squared)` of
`_nearest_enemy_dir`; Python's `min` keeps the first minimum. -/
def nearestEnemy (ppos : V2) : List Enemy → Option Enemy
  | [] => none
  | e :: rest =>
    rest.foldl (fun best c =>
      if dist_sq c.pos ppos < dist_sq best.pos ppos then c else best) e |> some

/-- Source: `Game._nearest_enemy_dir` — unit vector toward the nearest
enemy, `(1, 0)` when the player sits exactly on it (nonempty list only;
`none` maps to the empty-list early return of the caller). -/
def nearestEnemyDir (env : Env) (ppos : V2) (es : List Enemy) : V2 :=
  match nearestEnemy ppos es with
  | none => ⟨1, 0⟩
  | some n =>
    let toV := n.pos - ppos
    if toV.lensq ≠ 0 then env.unitOf toV else ⟨1, 0⟩

/-- The spread angle table of `_try_fire`. -/
def spreadAngles (level : ℕ) : List ℚ := if level = 1 then [10, -10] else [8, -8, 16, -16]

/-- Source: `Game._try_fire` — fire only when the timer elapsed and an enemy
exists; re-arm the timer from the (possibly Rapid-buffed ×0.45) cooldown
floored at 0.08; emit the aimed bullet plus rotated spread bullets, with
per-bullet pierce from the buff or the base stat. -/
def phaseFire (env : Env) (g : Game) : Game :=
  if 0 < g.player.fire_timer then g
  else if g.enemies.isEmpty then g
  else
    let aim := nearestEnemyDir env g.player.pos g.enemies
    let cooldown := g.player.fire_cooldown * (if 0 < g.rapid_time then 9/20 else 1)
    let p : Player := { g.player with fire_timer := max (2/25) cooldown }
    let dirs := aim :: (if (decide (0 < g.spread_time) || decide (0 < p.spread_level)) then
        (spreadAngles (max p.spread_level 1)).map fun ang =>
          env.unitOf ⟨aim.x * env.rotCos ang - aim.y * env.rotSin ang,
                      aim.x * env.rotSin ang + aim.y * env.rotCos ang⟩
      else [])
    let newBs := dirs.map fun d =>
      ({ pos := p.pos + d.smul (p.radius + 6), vel := d.smul BULLET_SPEED,
         pierce := if 0 < g.pierce_time then 1 else p.pierce,
         dmg := p.damage } : Bullet)
    { g with player := p, bullets := g.bullets ++ newBs, shake := min 6 (g.shake + 3/2) }

/-- Bullet advancement: homing enemy bullets steer toward the player, then
every bullet integrates (`b.update(dt)`). -/
def phaseBulletMove (env : Env) (dt : ℚ) (g : Game) : Game :=
  { g with bullets := g.bullets.map fun b =>
      let b1 := if b.from_enemy ∧ b.homing then
          let toP := g.player.pos - b.pos
          if 0 < toP.lensq then
            let desired := (env.unitOf toP).smul ENEMY_BULLET_SPEED
            { b with vel := b.vel + (desired - b.vel).smul (clamp (4 * dt) 0 1) }
          else b
        else b
      b1.update dt }

/-- Particle integration and expiry filtering. -/
def phaseParticles (dt : ℚ) (g : Game) : Game :=
  { g with particles := (g.particles.map (Particle.update · dt)).filter Particle.alive }

/-- Map with the position index, starting at `i` (the enemy loop's index). -/
def mapIdxFrom (f : ℕ → α → β) : ℕ → List α → List β
  | _, [] => []
  | i, a :: as => f i a :: mapIdxFrom f (i + 1) as

/-- The enemy loop: per-enemy steering/dash update plus kind-specific
behaviour; bullets fired by enemies are appended to `self.bullets`. -/
def phaseEnemies (env : Env) (dt : ℚ) (g : Game) : Game :=
  let results := mapIdxFrom (fun i e => enemyFrame env dt g.player.pos i e) 0 g.enemies
  { g with enemies := results.map (·.1),
           bullets := g.bullets ++ (results.map (·.2)).flatten }

/-- Source: `Game._spawn_enemy` from the environment's draws. -/
def spawnEnemy (env : Env) (enemy_speed : ℚ) (enemy_level : ℕ) : Enemy :=
  let side := env.spawnSide % 4
  let pv : V2 × V2 :=
    if side = 0 then (⟨-ENEMY_RADIUS, env.spawnOff⟩, ⟨1, 0⟩)
    else if side = 1 then (⟨WIDTH + ENEMY_RADIUS, env.spawnOff⟩, ⟨-1, 0⟩)
    else if side = 2 then (⟨env.spawnOff, -ENEMY_RADIUS⟩, ⟨0, 1⟩)
    else (⟨env.spawnOff, HEIGHT + ENEMY_RADIUS⟩, ⟨0, -1⟩)
  let speed0 := enemy_speed * env.spawnSpeedMult
  let tier := env.spawnTier % (enemy_level + 1)
  let speed1 := speed0 * (1 + (3/20) * (tier : ℚ))
  let dash := if 1 ≤ tier then env.spawnDash else 0
  let k := env.spawnType % 3
  let speed2 := if k = 1 then speed1 * (11/10) else if k = 2 then speed1 * (9/10) else speed1
  let zig := if k = 1 then env.spawnZig else 0
  let shoot := if k = 2 then env.spawnShoot else if k ≠ 1 ∧ 2 ≤ tier then env.spawnShoot else 0
  let etype := if k = 1 then EnemyType.ZIGZAG else if k = 2 then .HOMING else .NORMAL
  { pos := pv.1, vel := pv.2.smul speed2, speed := speed2, etype := etype,
    hp := 1 + (tier : ℤ), tier := tier, dash_cd := dash, shoot_cd := shoot,
    zigzag_phase := zig }

/-- Source: `Game._spawn_boss` from the environment's draws; hp scales with
the elapsed clock `int(t // 20)`. -/
def spawnBoss (env : Env) (t : ℚ) (enemy_speed : ℚ) : Enemy :=
  let k := env.bossKind % 3
  if k = 2 then
    let speed := max 80 (enemy_speed * (4/5))
    { pos := ⟨env.bossOff, -40⟩, vel := ⟨0, speed⟩, speed := speed, etype := .MEGA_BOSS,
      radius := 56, hp := 60 + ⌊t / 20⌋ * 10, is_boss := true, tier := 3,
      dash_cd := 0, shoot_cd := env.bossShoot, boss_kind := k }
  else
    let speed := max 90 (enemy_speed * (9/10))
    { pos := ⟨env.bossOff, -40⟩, vel := ⟨0, speed⟩, speed := speed, etype := .BOSS,
      radius := 34, hp := 24 + ⌊t / 20⌋ * 6, is_boss := true,
      tier := if k = 1 then 2 else 1,
      dash_cd := env.bossDash, shoot_cd := if k = 1 then env.bossShoot else 0,
      boss_kind := k }

/-- Enemy spawn scheduling: the countdown always ticks; while no boss is
alive and the cap is not reached a spawn fires and re-arms the countdown by
`ENEMY_SPAWN_COOLDOWN · DIFF_SPAWN_MULT[difficulty] · uniform(0.6, 1.2)`. -/
def phaseSpawn (env : Env) (dt : ℚ) (g : Game) : Game :=
  let timer := g.spawn_timer - dt
  if ¬ hasBoss g.enemies ∧ timer ≤ 0 ∧ g.enemies.length < g.max_enemies then
    { g with enemies := g.enemies ++ [spawnEnemy env g.enemy_speed g.enemy_level],
             spawn_timer := ENEMY_SPAWN_COOLDOWN * DIFF_SPAWN_MULT g.difficulty_idx * env.spawnRe }
  else { g with spawn_timer := timer }

/-- Boss scheduling: countdown ticks; at ≤ 0 with no live boss a boss spawns
and the timer is pinned to the 999 sentinel until the kill re-arms it. -/
def phaseBoss (env : Env) (dt : ℚ) (g : Game) : Game :=
  let timer := g.boss_timer - dt
  if timer ≤ 0 ∧ ¬ hasBoss g.enemies then
    { g with enemies := g.enemies ++ [spawnBoss env g.t g.enemy_speed],
             boss_timer := 999 }
  else { g with boss_timer := timer }

/-- Difficulty ramp: every 2 s of accumulated time, +6 enemy speed (cap 260)
and +1 max enemies (cap `ENEMY_MAX`). -/
def phaseRamp (dt : ℚ) (g : Game) : Game :=
  let timer := g.diff_timer + dt
  if 2 ≤ timer then
    { g with diff_timer := 0, enemy_speed := min (g.enemy_speed + 6) 260,
             max_enemies := min (g.max_enemies + 1) ENEMY_MAX }
  else { g with diff_timer := timer }

/-- Orb pickup: overlap awards `ORB_SCORE` and `XP_ORB` and respawns the
single orb at a fresh random interior position. -/
def phaseOrb (env : Env) (g : Game) : Game :=
  if circle_collision g.player.pos g.player.radius g.orb.pos g.orb.radius then
    { g with score := g.score + ORB_SCORE, player := g.player.gain_xp XP_ORB,
             orb := env.newOrb, shake := min 8 (g.shake + 4) }
  else g

/-- Passive score tick: `self.score += int(20 * dt)`. -/
def phasePassive (dt : ℚ) (g : Game) : Game :=
  { g with score := g.score + pyInt (20 * dt) }

/-- Direct enemy-body contact: outside iframes, the first overlapping enemy
(in population order) triggers the shield-or-life arbitration, then the loop
breaks. -/
def phaseBody (g : Game) : Game :=
  if g.player.iframes ≤ 0 then
    match g.enemies.find? (fun e => circle_collision g.player.pos g.player.radius e.pos e.radius) with
    | some _ =>
      let r := playerHit g.player g.lives g.state
      { g with player := r.1, lives := r.2.1, shake := r.2.2.1, state := r.2.2.2 }
    | none => g
  else g

/-- Source: `Game.apply_powerup` — set the matching timed buff to the full
duration, or arm the shield. -/
def apply_powerup (kind : PUType) (g : Game) : Game :=
  match kind with
  | .RAPID => { g with rapid_time := POWERUP_DURATION }
  | .SPREAD => { g with spread_time := POWERUP_DURATION }
  | .SHIELD =>
    let p : Player := { g.player with has_shield := true, shield_time := POWERUP_DURATION }
    { g with player := p }
  | .SPEED => { g with speed_time := POWERUP_DURATION }
  | .PIERCE => { g with pierce_time := POWERUP_DURATION }

/-- The `PUType` drawn by `random.choice(list(PUType))`. -/
def puKindOf (n : ℕ) : PUType :=
  match n % 5 with
  | 0 => .RAPID | 1 => .SPREAD | 2 => .SHIELD | 3 => .SPEED | _ => .PIERCE

/-- The pickup scan `for pu in list(self.powerups)`: an overlapping power-up
applies its buff and is removed (collision uses the `POWERUP_RADIUS`
constant, as in the source). -/
def puPickupLoop (ppos : V2) (prad : ℚ) : List PowerUp → Game → Game
  | [], g => g
  | pu :: rest, g =>
    if circle_collision ppos prad pu.pos POWERUP_RADIUS then
      let g1 := apply_powerup pu.kind g
      puPickupLoop ppos prad rest
        { g1 with powerups := g1.powerups.erase pu, shake := min 8 (g1.shake + 3) }
    else puPickupLoop ppos prad rest g

/-- Power-up spawning (timer redraw in `[POWERUP_SPAWN_MIN, POWERUP_SPAWN_MAX]`)
followed by the pickup scan. -/
def phasePowerups (env : Env) (dt : ℚ) (g : Game) : Game :=
  let timer := g.pu_spawn_timer - dt
  let g1 : Game :=
    if timer ≤ 0 then
      { g with powerups := g.powerups ++ [⟨env.puPos, puKindOf env.puKind, POWERUP_RADIUS⟩],
               pu_spawn_timer := env.puRe }
    else { g with pu_spawn_timer := timer }
  puPickupLoop g1.player.pos g1.player.radius g1.powerups g1

/-- Buff timer decay and the speed multiplier refresh. -/
def phaseBuffs (dt : ℚ) (g : Game) : Game :=
  { g with rapid_time := max 0 (g.rapid_time - dt),
           speed_time := max 0 (g.speed_time - dt),
           spread_time := max 0 (g.spread_time - dt),
           pierce_time := max 0 (g.pierce_time - dt),
           player := { g.player with
             speed_mult := if 0 < max 0 (g.speed_time - dt) then 13/10 else 1 } }

/-- Screen-shake decay. -/
def phaseShake (dt : ℚ) (g : Game) : Game :=
  if 0 < g.shake then { g with shake := max 0 (g.shake - 20 * dt) } else g

/-! ## The whole frame -/

/-- `Game.update_play` up to (but excluding) the orb pickup check, in source
order: player integration, enemy-level refresh, auto-fire, bullet advance,
bullet collision resolution, particles, enemy behaviour, spawn scheduling,
boss scheduling, difficulty ramp. -/
def preOrb (env : Env) (dt : ℚ) (g : Game) : Game :=
  phaseRamp dt (phaseBoss env dt (phaseSpawn env dt (phaseEnemies env dt
    (phaseParticles dt (phaseCombat env (phaseBulletMove env dt
      (phaseFire env (phaseLevel (phasePlayer env dt g)))))))))

/-- `Game.update_play` with the shop closed: the pre-orb phases, then orb
pickup, passive score tick, enemy body contact, power-ups, buff decay and
shake decay. -/
def updatePlayOpen (env : Env) (dt : ℚ) (g : Game) : Game :=
  phaseShake dt (phaseBuffs dt (phasePowerups env dt (phaseBody
    (phasePassive dt (phaseOrb env (preOrb env dt g))))))

/-- Source: `Game.update_play(dt)`.  With the shop open only the player
integrates (pause-via-shop); otherwise the full frame runs. -/
def updatePlay (env : Env) (dt : ℚ) (g : Game) : Game :=
  if g.shop_open then { g with player := g.player.update env dt }
  else updatePlayOpen env dt g

/-- One iteration of the main loop in `PLAYING` mode: the clock advances by
`dt` (`self.t += dt`) and `update_play` runs. -/
def stepFrame (env : Env) (dt : ℚ) (g : Game) : Game :=
  updatePlay env dt { g with t := g.t + dt }

/-- The shop-toggle command (`B` key while playing). -/
def toggleShop (g : Game) : Game := { g with shop_open := !g.shop_open }

/-- Game states reachable by the modelled engine: a fresh run (initial or
restarted, at any nonnegative clock), frames with nonnegative `dt`, shop
purchases and shop toggles. -/
inductive Reachable : Game → Prop
  | init (t : ℚ) (hs : ℤ) (di : Fin 3) (orb : Orb) (puT : ℚ) (ht : 0 ≤ t) :
      Reachable (resetGame t hs di orb puT)
  | step {g} (env : Env) (dt : ℚ) (hdt : 0 ≤ dt) : Reachable g → Reachable (stepFrame env dt g)
  | buy {g} (idx : ℤ) : Reachable g → Reachable (buyIfCan idx g)
  | toggle {g} : Reachable g → Reachable (toggleShop g)

/-! ## Concrete fixtures used by the witnesses and counterexamples -/

/-- A concrete playing state with one enemy and the Rapid buff active. -/
def rapidGame : Game where
  player := { pos := ⟨450, 300⟩ }
  orb := ⟨⟨200, 200⟩, ORB_RADIUS⟩
  enemies := [{ pos := ⟨100, 100⟩, vel := ⟨0, 0⟩, speed := 120 }]
  rapid_time := 5

/-- The current cost of an upgrade slot, 0 for an out-of-range index. -/
def costAt (g : Game) (idx : ℤ) : ℕ :=
  if h : 0 ≤ idx ∧ idx < 6 then g.costs ⟨idx.toNat, by omega⟩ else 0

/-- The cost-update formula as the claim words it: `round(prior_cost × 1.4)
+ 1` capped at the ceiling 999 (exact arithmetic, mathematical rounding). -/
def specInflate (cost : ℕ) : ℕ := min 999 ((round ((cost : ℚ) * (7/5))).toNat + 1)

/-- A playing state rich enough to buy the damage upgrade four times. -/
def gameShop : Game where
  player := { pos := ⟨450, 300⟩ }
  orb := ⟨⟨200, 200⟩, ORB_RADIUS⟩
  coins := 300

/-- The state after three successful damage purchases (costs 25, 36, 51). -/
def shopAfter3 : Game := buyIfCan 0 (buyIfCan 0 (buyIfCan 0 gameShop))

/-- A bullet with `pierce = 1` overlapping two weak enemies. -/
def sweepBullet : Bullet := { pos := ⟨100, 100⟩, vel := ⟨0, 0⟩, pierce := 1 }

/-- Two enemies sitting on the bullet, each with 1 hp. -/
def sweepEnemies : List Enemy :=
  [{ pos := ⟨100, 100⟩, vel := ⟨0, 0⟩, speed := 100 },
   { pos := ⟨105, 100⟩, vel := ⟨0, 0⟩, speed := 100 }]

/-- A playing state with one live boss. -/
def bossGame : Game where
  player := { pos := ⟨450, 300⟩ }
  orb := ⟨⟨200, 200⟩, ORB_RADIUS⟩
  enemies := [{ pos := ⟨100, 100⟩, vel := ⟨0, 0⟩, speed := 100, etype := .BOSS,
                radius := 34, hp := 24, is_boss := true, tier := 1 }]

def freshG : Game := resetGame 0 0 1 ⟨⟨450, 300⟩, ORB_RADIUS⟩ 100

/-- An enemy far from the origin, for a bullet that misses. -/
def sweepFar : Enemy := { pos := ⟨500, 0⟩, vel := ⟨0, 0⟩, speed := 100, hp := 2 }

/-! ## Helper lemmas: the phases after player integration never move the
player (they only touch timers, stats, xp and shield). -/

lemma clamp_bounds (x lo hi : ℚ) (h : lo ≤ hi) : lo ≤ clamp x lo hi ∧ clamp x lo hi ≤ hi :=
  ⟨le_max_left _ _, max_le h (min_le_left _ _)⟩

lemma levelLoop_pos_radius (fuel : ℕ) : ∀ p : Player,
    (levelLoop fuel p).pos = p.pos ∧ (levelLoop fuel p).radius = p.radius := by
  induction fuel with
  | zero => intro p; exact ⟨rfl, rfl⟩
  | succ n ih =>
    intro p
    unfold levelLoop
    split
    · exact ih _
    · exact ⟨rfl, rfl⟩

lemma gain_xp_pos_radius (p : Player) (n : ℕ) :
    (p.gain_xp n).pos = p.pos ∧ (p.gain_xp n).radius = p.radius :=
  levelLoop_pos_radius _ _

lemma playerHit_pos_radius (p : Player) (l : ℤ) (st : GState) :
    (playerHit p l st).1.pos = p.pos ∧ (playerHit p l st).1.radius = p.radius := by
  unfold playerHit
  split <;> exact ⟨rfl, rfl⟩

lemma applyReward_player (env : Env) (t : ℚ) (cs : CombatState) (e : Enemy) :
    (applyReward env t cs e).player.pos = cs.player.pos ∧
    (applyReward env t cs e).player.radius = cs.player.radius := by
  unfold applyReward
  split <;> exact gain_xp_pos_radius _ _

lemma foldReward_player (env : Env) (t : ℚ) (l : List Enemy) : ∀ cs : CombatState,
    (l.foldl (applyReward env t) cs).player.pos = cs.player.pos ∧
    (l.foldl (applyReward env t) cs).player.radius = cs.player.radius := by
  induction l with
  | nil => intro cs; exact ⟨rfl, rfl⟩
  | cons e rest ih =>
    intro cs
    have h1 := applyReward_player env t cs e
    have h2 := ih (applyReward env t cs e)
    exact ⟨h2.1.trans h1.1, h2.2.trans h1.2⟩

lemma processBullet_player (env : Env) (t : ℚ) (cs : CombatState) (b : Bullet) :
    (processBullet env t cs b).player.pos = cs.player.pos ∧
    (processBullet env t cs b).player.radius = cs.player.radius := by
  unfold processBullet
  split
  · exact ⟨rfl, rfl⟩
  split
  · split
    · exact playerHit_pos_radius _ _ _
    · exact ⟨rfl, rfl⟩
  · dsimp only
    have h := foldReward_player env t
      (bulletSweep b.pos b.radius b.dmg b.pierce cs.enemies).killed
      { cs with enemies := (bulletSweep b.pos b.radius b.dmg b.pierce cs.enemies).remaining }
    split
    · exact h
    · exact h

lemma foldBullets_player (env : Env) (t : ℚ) (bs : List Bullet) : ∀ cs : CombatState,
    (bs.foldl (processBullet env t) cs).player.pos = cs.player.pos ∧
    (bs.foldl (processBullet env t) cs).player.radius = cs.player.radius := by
  induction bs with
  | nil => intro cs; exact ⟨rfl, rfl⟩
  | cons b rest ih =>
    intro cs
    have h1 := processBullet_player env t cs b
    have h2 := ih (processBullet env t cs b)
    exact ⟨h2.1.trans h1.1, h2.2.trans h1.2⟩

lemma phaseCombat_player (env : Env) (g : Game) :
    (phaseCombat env g).player.pos = g.player.pos ∧
    (phaseCombat env g).player.radius = g.player.radius :=
  foldBullets_player env g.t g.bullets _

lemma phaseFire_player (env : Env) (g : Game) :
    (phaseFire env g).player.pos = g.player.pos ∧
    (phaseFire env g).player.radius = g.player.radius := by
  unfold phaseFire
  split
  · exact ⟨rfl, rfl⟩
  split
  · exact ⟨rfl, rfl⟩
  · exact ⟨rfl, rfl⟩

lemma phaseOrb_player (env : Env) (g : Game) :
    (phaseOrb env g).player.pos = g.player.pos ∧
    (phaseOrb env g).player.radius = g.player.radius := by
  unfold phaseOrb
  split
  · exact gain_xp_pos_radius _ _
  · exact ⟨rfl, rfl⟩

lemma phaseBody_player (g : Game) :
    (phaseBody g).player.pos = g.player.pos ∧
    (phaseBody g).player.radius = g.player.radius := by
  unfold phaseBody
  split
  · split
    · exact playerHit_pos_radius _ _ _
    · exact ⟨rfl, rfl⟩
  · exact ⟨rfl, rfl⟩

lemma apply_powerup_player (k : PUType) (g : Game) :
    (apply_powerup k g).player.pos = g.player.pos ∧
    (apply_powerup k g).player.radius = g.player.radius := by
  cases k <;> exact ⟨rfl, rfl⟩

lemma puPickupLoop_player (ppos : V2) (prad : ℚ) (pus : List PowerUp) : ∀ g : Game,
    (puPickupLoop ppos prad pus g).player.pos = g.player.pos ∧
    (puPickupLoop ppos prad pus g).player.radius = g.player.radius := by
  induction pus with
  | nil => intro g; exact ⟨rfl, rfl⟩
  | cons pu rest ih =>
    intro g
    unfold puPickupLoop
    split
    · have h1 := apply_powerup_player pu.kind g
      have h2 := ih { apply_powerup pu.kind g with
        powerups := (apply_powerup pu.kind g).powerups.erase pu,
        shake := min 8 ((apply_powerup pu.kind g).shake + 3) }
      exact ⟨h2.1.trans h1.1, h2.2.trans h1.2⟩
    · exact ih g

lemma phasePowerups_player (env : Env) (dt : ℚ) (g : Game) :
    (phasePowerups env dt g).player.pos = g.player.pos ∧
    (phasePowerups env dt g).player.radius = g.player.radius := by
  unfold phasePowerups
  dsimp only
  split
  · exact puPickupLoop_player _ _ _ _
  · exact puPickupLoop_player _ _ _ _

lemma phaseShake_player (dt : ℚ) (g : Game) :
    (phaseShake dt g).player.pos = g.player.pos ∧
    (phaseShake dt g).player.radius = g.player.radius := by
  unfold phaseShake
  split <;> exact ⟨rfl, rfl⟩

lemma phaseSpawn_player (env : Env) (dt : ℚ) (g : Game) :
    (phaseSpawn env dt g).player.pos = g.player.pos ∧
    (phaseSpawn env dt g).player.radius = g.player.radius := by
  unfold phaseSpawn
  dsimp only
  split <;> exact ⟨rfl, rfl⟩

lemma phaseBoss_player (env : Env) (dt : ℚ) (g : Game) :
    (phaseBoss env dt g).player.pos = g.player.pos ∧
    (phaseBoss env dt g).player.radius = g.player.radius := by
  unfold phaseBoss
  dsimp only
  split <;> exact ⟨rfl, rfl⟩

lemma phaseRamp_player (dt : ℚ) (g : Game) :
    (phaseRamp dt g).player.pos = g.player.pos ∧
    (phaseRamp dt g).player.radius = g.player.radius := by
  unfold phaseRamp
  dsimp only
  split <;> exact ⟨rfl, rfl⟩

/-- Plain-equation forms of the preservation lemmas, for `simp` chaining. -/
lemma phaseCombat_pos (env : Env) (g : Game) :
    (phaseCombat env g).player.pos = g.player.pos := (phaseCombat_player env g).1
lemma phaseCombat_rad (env : Env) (g : Game) :
    (phaseCombat env g).player.radius = g.player.radius := (phaseCombat_player env g).2
lemma phaseFire_pos (env : Env) (g : Game) :
    (phaseFire env g).player.pos = g.player.pos := (phaseFire_player env g).1
lemma phaseFire_rad (env : Env) (g : Game) :
    (phaseFire env g).player.radius = g.player.radius := (phaseFire_player env g).2
lemma phaseOrb_pos (env : Env) (g : Game) :
    (phaseOrb env g).player.pos = g.player.pos := (phaseOrb_player env g).1
lemma phaseOrb_rad (env : Env) (g : Game) :
    (phaseOrb env g).player.radius = g.player.radius := (phaseOrb_player env g).2
lemma phaseBody_pos (g : Game) :
    (phaseBody g).player.pos = g.player.pos := (phaseBody_player g).1
lemma phaseBody_rad (g : Game) :
    (phaseBody g).player.radius = g.player.radius := (phaseBody_player g).2
lemma phasePowerups_pos (env : Env) (dt : ℚ) (g : Game) :
    (phasePowerups env dt g).player.pos = g.player.pos := (phasePowerups_player env dt g).1
lemma phasePowerups_rad (env : Env) (dt : ℚ) (g : Game) :
    (phasePowerups env dt g).player.radius = g.player.radius := (phasePowerups_player env dt g).2
lemma phaseShake_pos (dt : ℚ) (g : Game) :
    (phaseShake dt g).player.pos = g.player.pos := (phaseShake_player dt g).1
lemma phaseShake_rad (dt : ℚ) (g : Game) :
    (phaseShake dt g).player.radius = g.player.radius := (phaseShake_player dt g).2
lemma phaseSpawn_pos (env : Env) (dt : ℚ) (g : Game) :
    (phaseSpawn env dt g).player.pos = g.player.pos := (phaseSpawn_player env dt g).1
lemma phaseSpawn_rad (env : Env) (dt : ℚ) (g : Game) :
    (phaseSpawn env dt g).player.radius = g.player.radius := (phaseSpawn_player env dt g).2
lemma phaseBoss_pos (env : Env) (dt : ℚ) (g : Game) :
    (phaseBoss env dt g).player.pos = g.player.pos := (phaseBoss_player env dt g).1
lemma phaseBoss_rad (env : Env) (dt : ℚ) (g : Game) :
    (phaseBoss env dt g).player.radius = g.player.radius := (phaseBoss_player env dt g).2
lemma phaseRamp_pos (dt : ℚ) (g : Game) :
    (phaseRamp dt g).player.pos = g.player.pos := (phaseRamp_player dt g).1
lemma phaseRamp_rad (dt : ℚ) (g : Game) :
    (phaseRamp dt g).player.radius = g.player.radius := (phaseRamp_player dt g).2
lemma phaseLevel_pos (g : Game) : (phaseLevel g).player.pos = g.player.pos := rfl
lemma phaseLevel_rad (g : Game) : (phaseLevel g).player.radius = g.player.radius := rfl
lemma phaseBulletMove_pos (env : Env) (dt : ℚ) (g : Game) :
    (phaseBulletMove env dt g).player.pos = g.player.pos := rfl
lemma phaseBulletMove_rad (env : Env) (dt : ℚ) (g : Game) :
    (phaseBulletMove env dt g).player.radius = g.player.radius := rfl
lemma phaseParticles_pos (dt : ℚ) (g : Game) :
    (phaseParticles dt g).player.pos = g.player.pos := rfl
lemma phaseParticles_rad (dt : ℚ) (g : Game) :
    (phaseParticles dt g).player.radius = g.player.radius := rfl
lemma phaseEnemies_pos (env : Env) (dt : ℚ) (g : Game) :
    (phaseEnemies env dt g).player.pos = g.player.pos := rfl
lemma phaseEnemies_rad (env : Env) (dt : ℚ) (g : Game) :
    (phaseEnemies env dt g).player.radius = g.player.radius := rfl
lemma phasePassive_pos (dt : ℚ) (g : Game) :
    (phasePassive dt g).player.pos = g.player.pos := rfl
lemma phasePassive_rad (dt : ℚ) (g : Game) :
    (phasePassive dt g).player.radius = g.player.radius := rfl
lemma phaseBuffs_pos (dt : ℚ) (g : Game) :
    (phaseBuffs dt g).player.pos = g.player.pos := rfl
lemma phaseBuffs_rad (dt : ℚ) (g : Game) :
    (phaseBuffs dt g).player.radius = g.player.radius := rfl

/-- After the player-integration phase, no later phase of the frame moves
the player. -/
lemma updatePlayOpen_pos (env : Env) (dt : ℚ) (g : Game) :
    (updatePlayOpen env dt g).player.pos = (phasePlayer env dt g).player.pos := by
  simp only [updatePlayOpen, preOrb, phaseShake_pos, phaseBuffs_pos, phasePowerups_pos,
    phaseBody_pos, phasePassive_pos, phaseOrb_pos, phaseRamp_pos, phaseBoss_pos,
    phaseSpawn_pos, phaseEnemies_pos, phaseParticles_pos, phaseCombat_pos,
    phaseBulletMove_pos, phaseFire_pos, phaseLevel_pos]

lemma updatePlayOpen_rad (env : Env) (dt : ℚ) (g : Game) :
    (updatePlayOpen env dt g).player.radius = (phasePlayer env dt g).player.radius := by
  simp only [updatePlayOpen, preOrb, phaseShake_rad, phaseBuffs_rad, phasePowerups_rad,
    phaseBody_rad, phasePassive_rad, phaseOrb_rad, phaseRamp_rad, phaseBoss_rad,
    phaseSpawn_rad, phaseEnemies_rad, phaseParticles_rad, phaseCombat_rad,
    phaseBulletMove_rad, phaseFire_rad, phaseLevel_rad]

/-! ## Claim C5: the player never leaves the arena -/

lemma playerUpdate_pos_bounds (env : Env) (dt : ℚ) (p : Player)
    (hx : p.radius ≤ WIDTH - p.radius) (hy : p.radius ≤ HEIGHT - p.radius) :
    p.radius ≤ (p.update env dt).pos.x ∧ (p.update env dt).pos.x ≤ WIDTH - p.radius ∧
    p.radius ≤ (p.update env dt).pos.y ∧ (p.update env dt).pos.y ≤ HEIGHT - p.radius := by
  unfold Player.update
  dsimp only
  exact ⟨(clamp_bounds _ _ _ hx).1, (clamp_bounds _ _ _ hx).2,
         (clamp_bounds _ _ _ hy).1, (clamp_bounds _ _ _ hy).2⟩

lemma playerUpdate_rad (env : Env) (dt : ℚ) (p : Player) :
    (p.update env dt).radius = p.radius := rfl

/-- Claim C5: after every `Player.update` call (and hence on every frame),
for every `dt ≥ 0` and every input, the player position satisfies
`radius ≤ x ≤ WIDTH - radius` and `radius ≤ y ≤ HEIGHT - radius` (the
game's player has the constant radius `PLAYER_RADIUS`). -/
theorem C5_player_in_bounds (env : Env) (dt : ℚ) (p : Player) (g : Game)
    (hdt : 0 ≤ dt) (hp : p.radius = PLAYER_RADIUS) (hg : g.player.radius = PLAYER_RADIUS) :
    (PLAYER_RADIUS ≤ (p.update env dt).pos.x ∧ (p.update env dt).pos.x ≤ WIDTH - PLAYER_RADIUS ∧
     PLAYER_RADIUS ≤ (p.update env dt).pos.y ∧ (p.update env dt).pos.y ≤ HEIGHT - PLAYER_RADIUS) ∧
    (PLAYER_RADIUS ≤ (stepFrame env dt g).player.pos.x ∧
     (stepFrame env dt g).player.pos.x ≤ WIDTH - PLAYER_RADIUS ∧
     PLAYER_RADIUS ≤ (stepFrame env dt g).player.pos.y ∧
     (stepFrame env dt g).player.pos.y ≤ HEIGHT - PLAYER_RADIUS) := by
  have key : ∀ q : Player, q.radius = PLAYER_RADIUS →
      PLAYER_RADIUS ≤ (q.update env dt).pos.x ∧
      (q.update env dt).pos.x ≤ WIDTH - PLAYER_RADIUS ∧
      PLAYER_RADIUS ≤ (q.update env dt).pos.y ∧
      (q.update env dt).pos.y ≤ HEIGHT - PLAYER_RADIUS := by
    intro q hq
    have hx : q.radius ≤ WIDTH - q.radius := by rw [hq]; norm_num [WIDTH, PLAYER_RADIUS]
    have hy : q.radius ≤ HEIGHT - q.radius := by rw [hq]; norm_num [HEIGHT, PLAYER_RADIUS]
    have h := playerUpdate_pos_bounds env dt q hx hy
    rw [hq] at h
    exact h
  refine ⟨key p hp, ?_⟩
  unfold stepFrame updatePlay
  split
  · exact key g.player hg
  · rw [updatePlayOpen_pos]
    exact key g.player hg

/-- Witness for C5 at a concrete player and reset game, `dt = 1`. -/
theorem C5_player_in_bounds_witness :
    PLAYER_RADIUS ≤ ((({ pos := ⟨450, 300⟩ } : Player).update {} 1).pos.x) :=
  ((C5_player_in_bounds {} 1 { pos := ⟨450, 300⟩ }
      (resetGame 0 0 1 ⟨⟨450, 300⟩, ORB_RADIUS⟩ 12) (by norm_num) rfl rfl).1).1

/-! ## Claim C1: shield-or-life arbitration on a hit -/

/-- Claim C1: for every hit while not invulnerable (enemy bullet or enemy
body contact — both run the same block, embedded as `playerHit`): a fully
charged shield resets to 0, leaves lives unchanged and grants 0.2 s of
invulnerability; otherwise a life is lost and the full `PLAYER_IFRAMES`
window is granted.  The body-contact phase applies exactly this block to the
first colliding enemy when the player is vulnerable. -/
theorem C1_shield_or_life (p : Player) (lives : ℤ) (st : GState) :
    (POWERUP_DURATION ≤ p.shield_time →
      (playerHit p lives st).1.shield_time = 0 ∧
      (playerHit p lives st).2.1 = lives ∧
      (playerHit p lives st).1.iframes = 1/5) ∧
    (p.shield_time < POWERUP_DURATION →
      (playerHit p lives st).2.1 = lives - 1 ∧
      (playerHit p lives st).1.iframes = PLAYER_IFRAMES ∧
      (playerHit p lives st).1.shield_time = p.shield_time) ∧
    (∀ g : Game, g.player.iframes ≤ 0 →
      (g.enemies.find? (fun e =>
        circle_collision g.player.pos g.player.radius e.pos e.radius)).isSome →
      (phaseBody g).player = (playerHit g.player g.lives g.state).1 ∧
      (phaseBody g).lives = (playerHit g.player g.lives g.state).2.1) := by
  refine ⟨?_, ?_, ?_⟩
  · intro h
    unfold playerHit
    rw [if_pos h]
    exact ⟨rfl, rfl, rfl⟩
  · intro h
    unfold playerHit
    rw [if_neg (not_le.mpr h)]
    exact ⟨rfl, rfl, rfl⟩
  · intro g hif hsome
    unfold phaseBody
    rw [if_pos hif]
    obtain ⟨e, he⟩ := Option.isSome_iff_exists.mp hsome
    rw [he]
    exact ⟨rfl, rfl⟩

/-- Witness for C1: a fully charged shield absorbs the hit. -/
theorem C1_shield_or_life_witness :
    (playerHit { pos := ⟨0, 0⟩, shield_time := 10 } 3 .PLAYING).2.1 = 3 :=
  ((C1_shield_or_life { pos := ⟨0, 0⟩, shield_time := 10 } 3 .PLAYING).1
    (by norm_num [POWERUP_DURATION])).2.1

/-! ## Claim C7: the fire-timer re-arm under the Rapid buff -/

/-- Claim C7 (amended): on every auto-fire event the timer is re-armed to
`max(0.08, fire_cooldown × 0.45)` while Rapid is active — the buff multiplies
the cooldown by 0.45, slightly stronger than the halving the claim states —
and to `max(0.08, fire_cooldown)` while it is inactive. -/
theorem C7_rapid_rearm (env : Env) (g : Game)
    (ht : g.player.fire_timer ≤ 0) (hne : g.enemies ≠ []) :
    (phaseFire env g).player.fire_timer =
      max (2/25) (g.player.fire_cooldown * (if 0 < g.rapid_time then 9/20 else 1)) ∧
    (0 < g.rapid_time → (phaseFire env g).player.fire_timer =
      max (2/25) (g.player.fire_cooldown * (9/20))) ∧
    (g.rapid_time ≤ 0 → (phaseFire env g).player.fire_timer =
      max (2/25) g.player.fire_cooldown) := by
  have h1 : ¬ 0 < g.player.fire_timer := not_lt.mpr ht
  have h2 : ¬ g.enemies.isEmpty = true := by
    simpa [List.isEmpty_iff] using hne
  unfold phaseFire
  rw [if_neg h1, if_neg h2]
  refine ⟨rfl, ?_, ?_⟩
  · intro h
    dsimp only
    rw [if_pos h]
  · intro h
    dsimp only
    rw [if_neg (not_lt.mpr h), mul_one]

/-- Witness for C7 at the default cooldown with Rapid active. -/
theorem C7_rapid_rearm_witness :
    (phaseFire {} rapidGame).player.fire_timer = max (2/25) (FIRE_COOLDOWN * (9/20)) :=
  (C7_rapid_rearm {} rapidGame (by norm_num [rapidGame]) (by simp [rapidGame])).2.1
    (by norm_num [rapidGame])

/-- Claim C7 as stated is false: with Rapid active and the default cooldown
0.35 the re-arm is `0.35 × 0.45 = 0.1575`, not the `0.35 × 0.5 = 0.175`
that "halves the effective fire cooldown" would give. -/
theorem C7_counterexample :
    (phaseFire {} rapidGame).player.fire_timer = 63/400 ∧
    max (2/25) (FIRE_COOLDOWN * (1/2)) = 7/40 ∧ (63/400 : ℚ) ≠ 7/40 := by
  refine ⟨?_, ?_, by norm_num⟩
  · show (phaseFire {} rapidGame).player.fire_timer = 63/400
    unfold phaseFire rapidGame
    norm_num
    rw [max_eq_right (by norm_num [FIRE_COOLDOWN])]
    norm_num [FIRE_COOLDOWN]
  · rw [max_eq_right (by norm_num [FIRE_COOLDOWN])]
    norm_num [FIRE_COOLDOWN]

/-! ## Claim C8: invalid or unaffordable purchases are no-ops -/

/-- Claim C8: a `buy(idx)` with an index outside 0..5 or with
`coins < cost` leaves the whole game state unchanged (`_buy_if_can` is
total: no error is raised or signaled). -/
theorem C8_invalid_buy_noop (g : Game) (idx : ℤ)
    (h : idx < 0 ∨ 6 ≤ idx ∨ g.coins < costAt g idx) :
    buyIfCan idx g = g := by
  unfold buyIfCan
  split
  · next hin =>
    rcases h with h | h | h
    · omega
    · omega
    · have : costAt g idx = g.costs ⟨idx.toNat, by omega⟩ := by
        unfold costAt
        rw [dif_pos hin]
      rw [this] at h
      rw [if_neg (by omega)]
  · rfl

/-- Witness for C8: buying slot 7 changes nothing. -/
theorem C8_invalid_buy_noop_witness :
    buyIfCan 7 (resetGame 0 0 1 ⟨⟨450, 300⟩, ORB_RADIUS⟩ 12) =
      resetGame 0 0 1 ⟨⟨450, 300⟩, ORB_RADIUS⟩ 12 :=
  C8_invalid_buy_noop _ 7 (Or.inr (Or.inl (by norm_num)))

/-! ## Claim C2: cost inflation on successful purchases -/

set_option maxRecDepth 10000 in
set_option maxHeartbeats 4000000 in
/-- Every cost at or below the 999 cap never decreases under the purchase
update `min(999, int(cost * 1.4) + 1)` (checked exhaustively). -/
lemma inflate_mono : ∀ c : ℕ, c < 1000 → c ≤ min 999 (inflate_cost c) := by decide

/-- Claim C2 as stated is false: the code truncates (`int`), the claim
rounds.  From the initial damage cost 25, three successful purchases leave
the cost at 72; the fourth successful purchase displays
`int(72 × 1.4) + 1 = 101`, while `round(72 × 1.4) + 1 = 102`. -/
theorem C2_counterexample :
    shopAfter3.costs 0 = 72 ∧ shopAfter3.coins = 188 ∧
    (buyIfCan 0 shopAfter3).costs 0 = 101 ∧
    specInflate 72 = 102 ∧ (101 : ℕ) ≠ 102 := by
  refine ⟨by decide, by decide, by decide, ?_, by decide⟩
  unfold specInflate
  norm_num [round_eq]
  decide

/-- Claim C2 (amended): a successful purchase of slot `i` (coins ≥ cost)
re-displays the cost as `min(999, int(prior × 1.4) + 1)` where the product
is IEEE-double and `int` truncates (e.g. 72 → 101, 45 → 63 — not the
claim's `round(…) + 1`), and the per-slot cost sequence is monotonically
non-decreasing. -/
theorem C2_cost_inflation (g : Game) (i : Fin 6)
    (hcoins : g.costs i ≤ g.coins) (hcap : g.costs i ≤ 999) :
    (buyIfCan ((i : ℕ) : ℤ) g).costs i = min 999 (inflate_cost (g.costs i)) ∧
    g.costs i ≤ (buyIfCan ((i : ℕ) : ℤ) g).costs i := by
  have hcond : 0 ≤ ((i : ℕ) : ℤ) ∧ ((i : ℕ) : ℤ) < 6 := by
    refine ⟨Int.ofNat_nonneg _, ?_⟩
    exact_mod_cast i.2
  have heq : (buyIfCan ((i : ℕ) : ℤ) g).costs i = min 999 (inflate_cost (g.costs i)) := by
    unfold buyIfCan
    rw [dif_pos hcond]
    have hfin : (⟨(((i : ℕ) : ℤ)).toNat, by omega⟩ : Fin 6) = i := by
      apply Fin.ext
      simp
    dsimp only
    rw [hfin, if_pos hcoins]
    exact Function.update_same i _ g.costs
  exact ⟨heq, heq ▸ inflate_mono _ (by omega)⟩

/-- Witness for C2 at the fresh shop state, slot 0 (cost 25 → 36). -/
theorem C2_cost_inflation_witness :
    (buyIfCan (((0 : Fin 6) : ℕ) : ℤ) gameShop).costs 0 =
      min 999 (inflate_cost (gameShop.costs 0)) :=
  (C2_cost_inflation gameShop 0 (by decide) (by decide)).1

/-! ## Claim C3: pierce semantics of the bullet sweep -/

lemma sweep_all_killed (bpos : V2) (brad : ℚ) (dmg : ℤ) :
    ∀ (es : List Enemy) (pierce : ℕ),
      es.length = pierce + 1 →
      (∀ e ∈ es, circle_collision bpos brad e.pos e.radius = true ∧ e.hp ≤ dmg) →
      (bulletSweep bpos brad dmg pierce es).killed.length = pierce + 1 ∧
      (bulletSweep bpos brad dmg pierce es).remaining = [] ∧
      (bulletSweep bpos brad dmg pierce es).hitAny = true := by
  intro es
  induction es with
  | nil => intro pierce h; simp at h
  | cons e rest ih =>
    intro pierce hlen hall
    have hc := (hall e (List.mem_cons_self e rest)).1
    have hhp : ({ e with hp := e.hp - dmg } : Enemy).hp ≤ 0 := by
      have := (hall e (List.mem_cons_self e rest)).2
      simp only
      omega
    unfold bulletSweep
    rw [if_pos hc]
    dsimp only
    rw [if_pos hhp]
    cases pierce with
    | zero =>
      rw [if_neg (lt_irrefl 0)]
      have hrest : rest = [] := by
        simpa using hlen
      exact ⟨rfl, by simp [hrest], rfl⟩
    | succ n =>
      rw [if_pos (Nat.succ_pos n)]
      dsimp only
      have hr := ih n (by simpa using hlen)
        (fun x hx => hall x (List.mem_cons_of_mem _ hx))
      refine ⟨?_, hr.2.1, hr.2.2⟩
      simp [hr.1]

lemma sweep_no_hit (bpos : V2) (brad : ℚ) (dmg : ℤ) :
    ∀ (es : List Enemy) (pierce : ℕ),
      (∀ e ∈ es, circle_collision bpos brad e.pos e.radius = false) →
      (bulletSweep bpos brad dmg pierce es).remaining = es ∧
      (bulletSweep bpos brad dmg pierce es).killed = [] ∧
      (bulletSweep bpos brad dmg pierce es).hitAny = false := by
  intro es
  induction es with
  | nil => intro pierce _; exact ⟨rfl, rfl, rfl⟩
  | cons e rest ih =>
    intro pierce hall
    have hc : ¬ circle_collision bpos brad e.pos e.radius = true := by
      simp [hall e (List.mem_cons_self e rest)]
    unfold bulletSweep
    rw [if_neg hc]
    dsimp only
    have hr := ih pierce (fun x hx => hall x (List.mem_cons_of_mem _ hx))
    exact ⟨by rw [hr.1], hr.2.1, hr.2.2⟩

lemma sweep_zero_pierce_hit (bpos : V2) (brad : ℚ) (dmg : ℤ) :
    ∀ es : List Enemy,
      (∃ e ∈ es, circle_collision bpos brad e.pos e.radius = true) →
      (bulletSweep bpos brad dmg 0 es).hitAny = true := by
  intro es
  induction es with
  | nil => rintro ⟨e, he, -⟩; simp at he
  | cons e rest ih =>
    rintro ⟨x, hx, hcx⟩
    unfold bulletSweep
    by_cases hc : circle_collision bpos brad e.pos e.radius = true
    · rw [if_pos hc]
      dsimp only
      split
      · rw [if_neg (lt_irrefl 0)]
      · rw [if_neg (lt_irrefl 0)]
    · rw [if_neg hc]
      dsimp only
      apply ih
      rcases List.mem_cons.mp hx with h | h
      · exact absurd (h ▸ hcx) hc
      · exact ⟨x, h, hcx⟩

lemma applyReward_kept (env : Env) (t : ℚ) (cs : CombatState) (e : Enemy) :
    (applyReward env t cs e).kept = cs.kept := by
  unfold applyReward
  split <;> rfl

lemma foldReward_kept (env : Env) (t : ℚ) (l : List Enemy) : ∀ cs : CombatState,
    (l.foldl (applyReward env t) cs).kept = cs.kept := by
  induction l with
  | nil => intro cs; rfl
  | cons e rest ih =>
    intro cs
    exact (ih (applyReward env t cs e)).trans (applyReward_kept env t cs e)

/-- Claim C3: semantics of one player bullet against the live enemy list.
With `pierce = N` against `N + 1` overlapping enemies of `hp ≤ dmg`, exactly
`N + 1` enemies die and the bullet ends the sweep consumed (`hit_any`); with
`pierce = 0` any overlap consumes the bullet after the first hit; with no
overlap the list is untouched and the bullet is kept for the next frame
(the collision-loop step keeps it exactly when `hit_any` ended false). -/
theorem C3_pierce_semantics (b : Bullet) (es : List Enemy) :
    (es.length = b.pierce + 1 →
      (∀ e ∈ es, circle_collision b.pos b.radius e.pos e.radius = true ∧ e.hp ≤ b.dmg) →
      (bulletSweep b.pos b.radius b.dmg b.pierce es).killed.length = b.pierce + 1 ∧
      (bulletSweep b.pos b.radius b.dmg b.pierce es).remaining = [] ∧
      (bulletSweep b.pos b.radius b.dmg b.pierce es).hitAny = true) ∧
    (b.pierce = 0 →
      (∃ e ∈ es, circle_collision b.pos b.radius e.pos e.radius = true) →
      (bulletSweep b.pos b.radius b.dmg b.pierce es).hitAny = true) ∧
    ((∀ e ∈ es, circle_collision b.pos b.radius e.pos e.radius = false) →
      (bulletSweep b.pos b.radius b.dmg b.pierce es).remaining = es ∧
      (bulletSweep b.pos b.radius b.dmg b.pierce es).hitAny = false) ∧
    (∀ (env : Env) (t : ℚ) (cs : CombatState), b.alive = true → b.from_enemy = false →
      cs.enemies = es →
      ((processBullet env t cs b).kept = cs.kept ++ [b] ↔
        (bulletSweep b.pos b.radius b.dmg b.pierce es).hitAny = false)) := by
  refine ⟨?_, ?_, ?_, ?_⟩
  · intro hlen hall
    exact sweep_all_killed b.pos b.radius b.dmg es b.pierce hlen hall
  · intro hp hex
    exact hp ▸ sweep_zero_pierce_hit b.pos b.radius b.dmg es hex
  · intro hall
    have h := sweep_no_hit b.pos b.radius b.dmg es b.pierce hall
    exact ⟨h.1, h.2.2⟩
  · intro env t cs halive hpb hes
    subst hes
    unfold processBullet
    rw [if_neg (by simp [halive]), if_neg (by simp [hpb])]
    dsimp only
    split
    · next hh =>
      rw [foldReward_kept]
      constructor
      · intro habs
        exact absurd habs (by simp)
      · intro habs
        rw [hh] at habs
        cases habs
    · next hh =>
      rw [foldReward_kept]
      constructor
      · intro _
        simpa using hh
      · intro _
        rfl

/-- Witness for C3: the pierce-1 bullet kills both overlapping enemies. -/
theorem C3_pierce_semantics_witness :
    (bulletSweep sweepBullet.pos sweepBullet.radius sweepBullet.dmg
      sweepBullet.pierce sweepEnemies).killed.length = sweepBullet.pierce + 1 :=
  ((C3_pierce_semantics sweepBullet sweepEnemies).1 (by decide)
    (by
      intro e he
      simp only [sweepEnemies, List.mem_cons, List.not_mem_nil, or_false] at he
      rcases he with rfl | rfl
      · refine ⟨?_, by decide⟩
        show circle_collision ⟨100, 100⟩ 4 ⟨100, 100⟩ 16 = true
        simp [circle_collision, dist_sq]
        norm_num
      · refine ⟨?_, by decide⟩
        show circle_collision ⟨100, 100⟩ 4 ⟨105, 100⟩ 16 = true
        simp [circle_collision, dist_sq]
        norm_num)).1

/-! ## Claims C4 and C6: invariants of reachable states

Auxiliary counting lemmas, then per-phase facts: which phases leave the
enemy list (and the clock) untouched, and how the mutating phases act on
`hp` positivity and the boss count. -/

lemma countBosses_cons (e : Enemy) (es : List Enemy) :
    countBosses (e :: es) = (if e.is_boss then 1 else 0) + countBosses es := by
  cases hb : e.is_boss <;> simp [countBosses, List.filter_cons, hb, Nat.add_comm]

lemma countBosses_append (as bs : List Enemy) :
    countBosses (as ++ bs) = countBosses as + countBosses bs := by
  simp [countBosses, List.filter_append]

lemma hasBoss_false_count (es : List Enemy) (h : hasBoss es = false) :
    countBosses es = 0 := by
  induction es with
  | nil => rfl
  | cons e rest ih =>
    simp only [hasBoss, List.any_cons, Bool.or_eq_false_iff] at h
    rw [countBosses_cons, h.1]
    simpa [hasBoss] using ih h.2

lemma sweep_remaining_hp (bpos : V2) (brad : ℚ) (dmg : ℤ) :
    ∀ (es : List Enemy) (pierce : ℕ),
      (∀ e ∈ es, 1 ≤ e.hp) →
      ∀ x ∈ (bulletSweep bpos brad dmg pierce es).remaining, 1 ≤ x.hp := by
  intro es
  induction es with
  | nil =>
    intro pierce _ x hx
    simp [bulletSweep] at hx
  | cons e rest ih =>
    intro pierce hall x hx
    unfold bulletSweep at hx
    by_cases hc : circle_collision bpos brad e.pos e.radius = true
    · rw [if_pos hc] at hx
      dsimp only at hx
      by_cases hd : ({ e with hp := e.hp - dmg } : Enemy).hp ≤ 0
      · rw [if_pos hd] at hx
        by_cases hp0 : 0 < pierce
        · rw [if_pos hp0] at hx
          exact ih _ (fun y hy => hall y (List.mem_cons_of_mem _ hy)) x hx
        · rw [if_neg hp0] at hx
          exact hall x (List.mem_cons_of_mem _ hx)
      · rw [if_neg hd] at hx
        simp only at hd
        by_cases hp0 : 0 < pierce
        · rw [if_pos hp0] at hx
          rcases List.mem_cons.mp hx with rfl | hx'
          · simp only
            omega
          · exact ih _ (fun y hy => hall y (List.mem_cons_of_mem _ hy)) x hx'
        · rw [if_neg hp0] at hx
          rcases List.mem_cons.mp hx with rfl | hx'
          · simp only
            omega
          · exact hall x (List.mem_cons_of_mem _ hx')
    · rw [if_neg hc] at hx
      dsimp only at hx
      rcases List.mem_cons.mp hx with rfl | hx'
      · exact hall x (List.mem_cons_self x rest)
      · exact ih _ (fun y hy => hall y (List.mem_cons_of_mem _ hy)) x hx'

lemma sweep_remaining_bosses (bpos : V2) (brad : ℚ) (dmg : ℤ) :
    ∀ (es : List Enemy) (pierce : ℕ),
      countBosses (bulletSweep bpos brad dmg pierce es).remaining ≤ countBosses es := by
  intro es
  induction es with
  | nil => intro pierce; simp [bulletSweep, countBosses]
  | cons e rest ih =>
    intro pierce
    unfold bulletSweep
    by_cases hc : circle_collision bpos brad e.pos e.radius = true
    · rw [if_pos hc]
      dsimp only
      by_cases hd : ({ e with hp := e.hp - dmg } : Enemy).hp ≤ 0
      · rw [if_pos hd]
        by_cases hp0 : 0 < pierce
        · rw [if_pos hp0]
          dsimp only
          exact le_trans (ih _) (by rw [countBosses_cons]; omega)
        · rw [if_neg hp0]
          dsimp only
          rw [countBosses_cons]
          omega
      · rw [if_neg hd]
        by_cases hp0 : 0 < pierce
        · rw [if_pos hp0]
          dsimp only
          rw [countBosses_cons, countBosses_cons]
          exact Nat.add_le_add_left (ih _) _
        · rw [if_neg hp0]
          dsimp only
          rw [countBosses_cons, countBosses_cons]
    · rw [if_neg hc]
      dsimp only
      rw [countBosses_cons, countBosses_cons]
      exact Nat.add_le_add_left (ih _) _

lemma applyReward_enemies (env : Env) (t : ℚ) (cs : CombatState) (e : Enemy) :
    (applyReward env t cs e).enemies = cs.enemies := by
  unfold applyReward
  split <;> rfl

lemma foldReward_enemies (env : Env) (t : ℚ) (l : List Enemy) : ∀ cs : CombatState,
    (l.foldl (applyReward env t) cs).enemies = cs.enemies := by
  induction l with
  | nil => intro cs; rfl
  | cons e rest ih =>
    intro cs
    exact (ih _).trans (applyReward_enemies env t cs e)

lemma processBullet_enemies_hp (env : Env) (t : ℚ) (cs : CombatState) (b : Bullet)
    (h : ∀ e ∈ cs.enemies, 1 ≤ e.hp) :
    ∀ x ∈ (processBullet env t cs b).enemies, 1 ≤ x.hp := by
  unfold processBullet
  split
  · exact h
  split
  · split
    · exact h
    · exact h
  · dsimp only
    split
    · rw [foldReward_enemies]
      exact sweep_remaining_hp b.pos b.radius b.dmg cs.enemies b.pierce h
    · rw [foldReward_enemies]
      exact sweep_remaining_hp b.pos b.radius b.dmg cs.enemies b.pierce h

lemma processBullet_enemies_bosses (env : Env) (t : ℚ) (cs : CombatState) (b : Bullet) :
    countBosses (processBullet env t cs b).enemies ≤ countBosses cs.enemies := by
  unfold processBullet
  split
  · exact le_rfl
  split
  · split
    · exact le_rfl
    · exact le_rfl
  · dsimp only
    split
    · rw [foldReward_enemies]
      exact sweep_remaining_bosses b.pos b.radius b.dmg cs.enemies b.pierce
    · rw [foldReward_enemies]
      exact sweep_remaining_bosses b.pos b.radius b.dmg cs.enemies b.pierce

lemma foldBullets_enemies_hp (env : Env) (t : ℚ) (bs : List Bullet) : ∀ cs : CombatState,
    (∀ e ∈ cs.enemies, 1 ≤ e.hp) →
    ∀ x ∈ (bs.foldl (processBullet env t) cs).enemies, 1 ≤ x.hp := by
  induction bs with
  | nil => intro cs h; exact h
  | cons b rest ih =>
    intro cs h
    exact ih _ (processBullet_enemies_hp env t cs b h)

lemma foldBullets_enemies_bosses (env : Env) (t : ℚ) (bs : List Bullet) :
    ∀ cs : CombatState,
    countBosses (bs.foldl (processBullet env t) cs).enemies ≤ countBosses cs.enemies := by
  induction bs with
  | nil => intro cs; exact le_rfl
  | cons b rest ih =>
    intro cs
    exact le_trans (ih _) (processBullet_enemies_bosses env t cs b)

lemma phaseCombat_enemies_hp (env : Env) (g : Game)
    (h : ∀ e ∈ g.enemies, 1 ≤ e.hp) :
    ∀ x ∈ (phaseCombat env g).enemies, 1 ≤ x.hp :=
  foldBullets_enemies_hp env g.t g.bullets _ h

lemma phaseCombat_enemies_bosses (env : Env) (g : Game) :
    countBosses (phaseCombat env g).enemies ≤ countBosses g.enemies :=
  foldBullets_enemies_bosses env g.t g.bullets _

lemma enemyUpdate_hp_boss (e : Enemy) (env : Env) (i : ℕ) (dt : ℚ) (ppos : V2) :
    (e.update env i dt ppos).hp = e.hp ∧ (e.update env i dt ppos).is_boss = e.is_boss := by
  unfold Enemy.update
  dsimp only
  split
  · split
    · exact ⟨rfl, rfl⟩
    · exact ⟨rfl, rfl⟩
  · exact ⟨rfl, rfl⟩

lemma enemyKindStep_hp_boss (env : Env) (dt : ℚ) (ppos : V2) (i : ℕ) (e : Enemy) :
    (enemyKindStep env dt ppos i e).1.hp = e.hp ∧
    (enemyKindStep env dt ppos i e).1.is_boss = e.is_boss := by
  unfold enemyKindStep
  cases he : e.etype
  all_goals dsimp only
  all_goals first
    | exact ⟨rfl, rfl⟩
    | (split <;> first
        | exact ⟨rfl, rfl⟩
        | (split <;> exact ⟨rfl, rfl⟩))

lemma enemyFrame_hp_boss (env : Env) (dt : ℚ) (ppos : V2) (i : ℕ) (e : Enemy) :
    (enemyFrame env dt ppos i e).1.hp = e.hp ∧
    (enemyFrame env dt ppos i e).1.is_boss = e.is_boss := by
  have h1 := enemyUpdate_hp_boss e env i dt ppos
  have h2 := enemyKindStep_hp_boss env dt ppos i (e.update env i dt ppos)
  exact ⟨h2.1.trans h1.1, h2.2.trans h1.2⟩

lemma phaseEnemies_hp (env : Env) (dt : ℚ) (g : Game)
    (h : ∀ e ∈ g.enemies, 1 ≤ e.hp) :
    ∀ x ∈ (phaseEnemies env dt g).enemies, 1 ≤ x.hp := by
  unfold phaseEnemies
  dsimp only
  suffices hgen : ∀ (es : List Enemy) (i : ℕ), (∀ e ∈ es, 1 ≤ e.hp) →
      ∀ x ∈ (mapIdxFrom (fun i e => enemyFrame env dt g.player.pos i e) i es).map (·.1),
        1 ≤ x.hp by
    exact hgen g.enemies 0 h
  intro es
  induction es with
  | nil => intro i _ x hx; simp [mapIdxFrom] at hx
  | cons e rest ih =>
    intro i hall x hx
    simp only [mapIdxFrom, List.map_cons, List.mem_cons] at hx
    rcases hx with rfl | hx'
    · rw [(enemyFrame_hp_boss env dt g.player.pos i e).1]
      exact hall e (List.mem_cons_self e rest)
    · exact ih (i + 1) (fun y hy => hall y (List.mem_cons_of_mem _ hy)) x hx'

lemma phaseEnemies_bosses (env : Env) (dt : ℚ) (g : Game) :
    countBosses (phaseEnemies env dt g).enemies = countBosses g.enemies := by
  unfold phaseEnemies
  dsimp only
  suffices hgen : ∀ (es : List Enemy) (i : ℕ),
      countBosses ((mapIdxFrom (fun i e => enemyFrame env dt g.player.pos i e) i es).map (·.1)) =
        countBosses es by
    exact hgen g.enemies 0
  intro es
  induction es with
  | nil => intro i; rfl
  | cons e rest ih =>
    intro i
    simp only [mapIdxFrom, List.map_cons]
    rw [countBosses_cons, countBosses_cons,
      (enemyFrame_hp_boss env dt g.player.pos i e).2, ih (i + 1)]

/-! Enemy-list preservation by the phases that never touch it, and clock
preservation by every phase. -/

lemma phasePlayer_enemies (env : Env) (dt : ℚ) (g : Game) :
    (phasePlayer env dt g).enemies = g.enemies := rfl
lemma phaseLevel_enemies (g : Game) : (phaseLevel g).enemies = g.enemies := rfl
lemma phaseFire_enemies (env : Env) (g : Game) : (phaseFire env g).enemies = g.enemies := by
  unfold phaseFire
  split
  · rfl
  split
  · rfl
  · rfl
lemma phaseBulletMove_enemies (env : Env) (dt : ℚ) (g : Game) :
    (phaseBulletMove env dt g).enemies = g.enemies := rfl
lemma phaseParticles_enemies (dt : ℚ) (g : Game) :
    (phaseParticles dt g).enemies = g.enemies := rfl
lemma phaseRamp_enemies (dt : ℚ) (g : Game) : (phaseRamp dt g).enemies = g.enemies := by
  unfold phaseRamp
  dsimp only
  split <;> rfl
lemma phaseOrb_enemies (env : Env) (g : Game) : (phaseOrb env g).enemies = g.enemies := by
  unfold phaseOrb
  split <;> rfl
lemma phasePassive_enemies (dt : ℚ) (g : Game) :
    (phasePassive dt g).enemies = g.enemies := rfl
lemma phaseBody_enemies (g : Game) : (phaseBody g).enemies = g.enemies := by
  unfold phaseBody
  split
  · split <;> rfl
  · rfl
lemma apply_powerup_enemies (k : PUType) (g : Game) :
    (apply_powerup k g).enemies = g.enemies := by
  cases k <;> rfl
lemma puPickupLoop_enemies (ppos : V2) (prad : ℚ) (pus : List PowerUp) : ∀ g : Game,
    (puPickupLoop ppos prad pus g).enemies = g.enemies := by
  induction pus with
  | nil => intro g; rfl
  | cons pu rest ih =>
    intro g
    unfold puPickupLoop
    split
    · exact (ih _).trans (apply_powerup_enemies pu.kind g)
    · exact ih g
lemma phasePowerups_enemies (env : Env) (dt : ℚ) (g : Game) :
    (phasePowerups env dt g).enemies = g.enemies := by
  unfold phasePowerups
  dsimp only
  split
  · exact puPickupLoop_enemies _ _ _ _
  · exact puPickupLoop_enemies _ _ _ _
lemma phaseBuffs_enemies (dt : ℚ) (g : Game) : (phaseBuffs dt g).enemies = g.enemies := rfl
lemma phaseShake_enemies (dt : ℚ) (g : Game) : (phaseShake dt g).enemies = g.enemies := by
  unfold phaseShake
  split <;> rfl

lemma phasePlayer_t (env : Env) (dt : ℚ) (g : Game) : (phasePlayer env dt g).t = g.t := rfl
lemma phaseLevel_t (g : Game) : (phaseLevel g).t = g.t := rfl
lemma phaseFire_t (env : Env) (g : Game) : (phaseFire env g).t = g.t := by
  unfold phaseFire
  split
  · rfl
  split
  · rfl
  · rfl
lemma phaseBulletMove_t (env : Env) (dt : ℚ) (g : Game) :
    (phaseBulletMove env dt g).t = g.t := rfl
lemma phaseCombat_t (env : Env) (g : Game) : (phaseCombat env g).t = g.t := rfl
lemma phaseParticles_t (dt : ℚ) (g : Game) : (phaseParticles dt g).t = g.t := rfl
lemma phaseEnemies_t (env : Env) (dt : ℚ) (g : Game) : (phaseEnemies env dt g).t = g.t := rfl
lemma phaseSpawn_t (env : Env) (dt : ℚ) (g : Game) : (phaseSpawn env dt g).t = g.t := by
  unfold phaseSpawn
  dsimp only
  split <;> rfl
lemma phaseBoss_t (env : Env) (dt : ℚ) (g : Game) : (phaseBoss env dt g).t = g.t := by
  unfold phaseBoss
  dsimp only
  split <;> rfl
lemma phaseRamp_t (dt : ℚ) (g : Game) : (phaseRamp dt g).t = g.t := by
  unfold phaseRamp
  dsimp only
  split <;> rfl
lemma phaseOrb_t (env : Env) (g : Game) : (phaseOrb env g).t = g.t := by
  unfold phaseOrb
  split <;> rfl
lemma phasePassive_t (dt : ℚ) (g : Game) : (phasePassive dt g).t = g.t := rfl
lemma phaseBody_t (g : Game) : (phaseBody g).t = g.t := by
  unfold phaseBody
  split
  · split <;> rfl
  · rfl
lemma puPickupLoop_t (ppos : V2) (prad : ℚ) (pus : List PowerUp) : ∀ g : Game,
    (puPickupLoop ppos prad pus g).t = g.t := by
  induction pus with
  | nil => intro g; rfl
  | cons pu rest ih =>
    intro g
    unfold puPickupLoop
    split
    · refine (ih _).trans ?_
      cases pu.kind <;> rfl
    · exact ih g
lemma phasePowerups_t (env : Env) (dt : ℚ) (g : Game) : (phasePowerups env dt g).t = g.t := by
  unfold phasePowerups
  dsimp only
  split
  · exact puPickupLoop_t _ _ _ _
  · exact puPickupLoop_t _ _ _ _
lemma phaseBuffs_t (dt : ℚ) (g : Game) : (phaseBuffs dt g).t = g.t := rfl
lemma phaseShake_t (dt : ℚ) (g : Game) : (phaseShake dt g).t = g.t := by
  unfold phaseShake
  split <;> rfl

lemma updatePlay_t (env : Env) (dt : ℚ) (g : Game) : (updatePlay env dt g).t = g.t := by
  unfold updatePlay
  split
  · rfl
  · simp only [updatePlayOpen, preOrb, phaseShake_t, phaseBuffs_t, phasePowerups_t,
      phaseBody_t, phasePassive_t, phaseOrb_t, phaseRamp_t, phaseBoss_t, phaseSpawn_t,
      phaseEnemies_t, phaseParticles_t, phaseCombat_t, phaseBulletMove_t, phaseFire_t,
      phaseLevel_t, phasePlayer_t]

/-! Spawn facts. -/

lemma spawnEnemy_is_boss (env : Env) (s : ℚ) (l : ℕ) :
    (spawnEnemy env s l).is_boss = false := by
  unfold spawnEnemy
  rfl

lemma spawnEnemy_hp (env : Env) (s : ℚ) (l : ℕ) : 1 ≤ (spawnEnemy env s l).hp := by
  unfold spawnEnemy
  dsimp only
  omega

lemma spawnBoss_hp (env : Env) (t s : ℚ) (ht : 0 ≤ t) : 1 ≤ (spawnBoss env t s).hp := by
  have hfl : 0 ≤ ⌊t / 20⌋ := Int.floor_nonneg.mpr (by positivity)
  unfold spawnBoss
  dsimp only
  split
  · dsimp only
    omega
  · dsimp only
    omega

lemma phaseSpawn_hp (env : Env) (dt : ℚ) (g : Game)
    (h : ∀ e ∈ g.enemies, 1 ≤ e.hp) :
    ∀ x ∈ (phaseSpawn env dt g).enemies, 1 ≤ x.hp := by
  unfold phaseSpawn
  dsimp only
  split
  · intro x hx
    rcases List.mem_append.mp hx with hx' | hx'
    · exact h x hx'
    · rw [List.mem_singleton.mp hx']
      exact spawnEnemy_hp env g.enemy_speed g.enemy_level
  · exact h

lemma phaseSpawn_bosses (env : Env) (dt : ℚ) (g : Game) :
    countBosses (phaseSpawn env dt g).enemies = countBosses g.enemies := by
  unfold phaseSpawn
  dsimp only
  split
  · rw [countBosses_append, countBosses_cons, spawnEnemy_is_boss]
    simp [countBosses]
  · rfl

lemma phaseBoss_hp (env : Env) (dt : ℚ) (g : Game) (ht : 0 ≤ g.t)
    (h : ∀ e ∈ g.enemies, 1 ≤ e.hp) :
    ∀ x ∈ (phaseBoss env dt g).enemies, 1 ≤ x.hp := by
  unfold phaseBoss
  dsimp only
  split
  · intro x hx
    rcases List.mem_append.mp hx with hx' | hx'
    · exact h x hx'
    · rw [List.mem_singleton.mp hx']
      exact spawnBoss_hp env g.t g.enemy_speed ht
  · exact h

lemma phaseBoss_bosses (env : Env) (dt : ℚ) (g : Game)
    (h : countBosses g.enemies ≤ 1) :
    countBosses (phaseBoss env dt g).enemies ≤ 1 := by
  unfold phaseBoss
  dsimp only
  split
  · next hcond =>
    have h0 : countBosses g.enemies = 0 :=
      hasBoss_false_count _ (by simpa using hcond.2)
    rw [countBosses_append, h0, countBosses_cons]
    split <;> simp [countBosses]
  · exact h

/-! The run invariant and its preservation by every modelled operation. -/

lemma updatePlayOpen_hp (env : Env) (dt : ℚ) (g : Game) (ht : 0 ≤ g.t)
    (hhp : ∀ e ∈ g.enemies, 1 ≤ e.hp) :
    ∀ x ∈ (updatePlayOpen env dt g).enemies, 1 ≤ x.hp := by
  unfold updatePlayOpen preOrb
  simp only [phaseShake_enemies, phaseBuffs_enemies, phasePowerups_enemies,
    phaseBody_enemies, phasePassive_enemies, phaseOrb_enemies, phaseRamp_enemies]
  apply phaseBoss_hp
  · simp only [phaseSpawn_t, phaseEnemies_t, phaseParticles_t, phaseCombat_t,
      phaseBulletMove_t, phaseFire_t, phaseLevel_t, phasePlayer_t]
    exact ht
  · apply phaseSpawn_hp
    apply phaseEnemies_hp
    rw [phaseParticles_enemies]
    apply phaseCombat_enemies_hp
    rw [phaseBulletMove_enemies, phaseFire_enemies, phaseLevel_enemies, phasePlayer_enemies]
    exact hhp

lemma updatePlayOpen_bosses (env : Env) (dt : ℚ) (g : Game)
    (hb : countBosses g.enemies ≤ 1) :
    countBosses (updatePlayOpen env dt g).enemies ≤ 1 := by
  unfold updatePlayOpen preOrb
  simp only [phaseShake_enemies, phaseBuffs_enemies, phasePowerups_enemies,
    phaseBody_enemies, phasePassive_enemies, phaseOrb_enemies, phaseRamp_enemies]
  apply phaseBoss_bosses
  rw [phaseSpawn_bosses, phaseEnemies_bosses, phaseParticles_enemies]
  refine le_trans (phaseCombat_enemies_bosses _ _) ?_
  rw [phaseBulletMove_enemies, phaseFire_enemies, phaseLevel_enemies, phasePlayer_enemies]
  exact hb

lemma buyIfCan_enemies_t (idx : ℤ) (g : Game) :
    (buyIfCan idx g).enemies = g.enemies ∧ (buyIfCan idx g).t = g.t := by
  unfold buyIfCan
  split
  · dsimp only
    split
    · exact ⟨rfl, rfl⟩
    · exact ⟨rfl, rfl⟩
  · exact ⟨rfl, rfl⟩

lemma stepFrame_invariant (env : Env) (dt : ℚ) (g : Game) (hdt : 0 ≤ dt)
    (ht : 0 ≤ g.t) (hhp : ∀ e ∈ g.enemies, 1 ≤ e.hp) (hb : countBosses g.enemies ≤ 1) :
    0 ≤ (stepFrame env dt g).t ∧ (∀ e ∈ (stepFrame env dt g).enemies, 1 ≤ e.hp) ∧
    countBosses (stepFrame env dt g).enemies ≤ 1 := by
  unfold stepFrame
  have ht1 : (0 : ℚ) ≤ g.t + dt := add_nonneg ht hdt
  refine ⟨by rw [updatePlay_t]; exact ht1, ?_, ?_⟩
  · unfold updatePlay
    split
    · exact hhp
    · exact updatePlayOpen_hp env dt _ ht1 hhp
  · unfold updatePlay
    split
    · exact hb
    · exact updatePlayOpen_bosses env dt _ hb

/-- Every reachable state satisfies the run invariant: nonnegative clock,
strictly positive enemy hp, at most one live boss. -/
lemma reachable_invariant {g : Game} (h : Reachable g) :
    0 ≤ g.t ∧ (∀ e ∈ g.enemies, 1 ≤ e.hp) ∧ countBosses g.enemies ≤ 1 := by
  induction h with
  | init t hs di orb puT ht =>
    refine ⟨ht, ?_, ?_⟩
    · intro e he
      simp [resetGame] at he
    · simp [resetGame, countBosses]
  | step env dt hdt _ ih =>
    exact stepFrame_invariant env dt _ hdt ih.1 ih.2.1 ih.2.2
  | @buy g0 idx _ ih =>
    have h := buyIfCan_enemies_t idx g0
    rw [h.1, h.2]
    exact ih
  | toggle _ ih =>
    exact ih

/-! ## Claim C4 -/

/-- Claim C4: in every reachable state at most one boss-flagged enemy is
alive, and while a boss is alive neither the boss-spawn step nor the
enemy-spawn step adds any enemy (both spawn conditions require no live
boss). -/
theorem C4_boss_invariant (g : Game) (hg : Reachable g) (env : Env) (dt : ℚ)
    (g' : Game) (hb : hasBoss g'.enemies = true) :
    countBosses g.enemies ≤ 1 ∧
    (phaseBoss env dt g').enemies = g'.enemies ∧
    (phaseSpawn env dt g').enemies = g'.enemies := by
  refine ⟨(reachable_invariant hg).2.2, ?_, ?_⟩
  · unfold phaseBoss
    dsimp only
    rw [if_neg (by simp [hb])]
  · unfold phaseSpawn
    dsimp only
    rw [if_neg (by simp [hb])]

/-- Witness for C4 at a fresh reset state and a state with a live boss. -/
theorem C4_boss_invariant_witness :
    countBosses (resetGame 0 0 1 ⟨⟨450, 300⟩, ORB_RADIUS⟩ 12).enemies ≤ 1 ∧
    (phaseBoss {} 1 bossGame).enemies = bossGame.enemies :=
  let h := C4_boss_invariant (resetGame 0 0 1 ⟨⟨450, 300⟩, ORB_RADIUS⟩ 12)
    (Reachable.init 0 0 1 ⟨⟨450, 300⟩, ORB_RADIUS⟩ 12 le_rfl) {} 1 bossGame (by decide)
  ⟨h.1, h.2.1⟩

/-! ## Claim C6 -/

/-- Claim C6: in every reachable state (i.e. observable between frames)
every live enemy has `hp ≥ 1`; mechanically, whenever bullet damage drives
an enemy's hp to ≤ 0 during a sweep, that enemy is absent from the
remaining list, which stays hp-positive. -/
theorem C6_hp_positive (g : Game) (hg : Reachable g) :
    (∀ e ∈ g.enemies, 1 ≤ e.hp) ∧
    (∀ (bpos : V2) (brad : ℚ) (dmg : ℤ) (pierce : ℕ) (es : List Enemy),
      (∀ e ∈ es, 1 ≤ e.hp) →
      ∀ x ∈ (bulletSweep bpos brad dmg pierce es).remaining, 1 ≤ x.hp) :=
  ⟨(reachable_invariant hg).2.1,
   fun bpos brad dmg pierce es h => sweep_remaining_hp bpos brad dmg es pierce h⟩

/-- Witness for C6: a bullet missing the only enemy leaves it alive with
positive hp, via the sweep half of the theorem at a reachable state. -/
theorem C6_hp_positive_witness : 1 ≤ sweepFar.hp :=
  (C6_hp_positive (resetGame 0 0 1 ⟨⟨450, 300⟩, ORB_RADIUS⟩ 12)
    (Reachable.init 0 0 1 ⟨⟨450, 300⟩, ORB_RADIUS⟩ 12 le_rfl)).2
    ⟨0, 0⟩ 4 1 0 [sweepFar]
    (fun e he => by
      rcases List.mem_singleton.mp he with rfl
      decide)
    sweepFar
    (by
      have h : (bulletSweep ⟨0, 0⟩ 4 1 0 [sweepFar]).remaining = [sweepFar] := by
        simp [bulletSweep, circle_collision, dist_sq, sweepFar]
        rw [if_neg (by norm_num [ENEMY_RADIUS])]
      rw [h]
      exact List.mem_singleton.mpr rfl)

/-! ## Claims C9 and C10: score and xp accounting

Per-phase facts about the score, the kill counter, the player's xp/level
and the orb. -/

lemma phasePlayer_score (env : Env) (dt : ℚ) (g : Game) :
    (phasePlayer env dt g).score = g.score := rfl
lemma phaseLevel_score (g : Game) : (phaseLevel g).score = g.score := rfl
lemma phaseFire_score (env : Env) (g : Game) : (phaseFire env g).score = g.score := by
  unfold phaseFire
  split
  · rfl
  split
  · rfl
  · rfl
lemma phaseBulletMove_score (env : Env) (dt : ℚ) (g : Game) :
    (phaseBulletMove env dt g).score = g.score := rfl
lemma phaseParticles_score (dt : ℚ) (g : Game) :
    (phaseParticles dt g).score = g.score := rfl
lemma phaseEnemies_score (env : Env) (dt : ℚ) (g : Game) :
    (phaseEnemies env dt g).score = g.score := rfl
lemma phaseSpawn_score (env : Env) (dt : ℚ) (g : Game) :
    (phaseSpawn env dt g).score = g.score := by
  unfold phaseSpawn
  dsimp only
  split <;> rfl
lemma phaseBoss_score (env : Env) (dt : ℚ) (g : Game) :
    (phaseBoss env dt g).score = g.score := by
  unfold phaseBoss
  dsimp only
  split <;> rfl
lemma phaseRamp_score (dt : ℚ) (g : Game) : (phaseRamp dt g).score = g.score := by
  unfold phaseRamp
  dsimp only
  split <;> rfl
lemma phaseBody_score (g : Game) : (phaseBody g).score = g.score := by
  unfold phaseBody
  split
  · split <;> rfl
  · rfl
lemma apply_powerup_score (k : PUType) (g : Game) :
    (apply_powerup k g).score = g.score := by
  cases k <;> rfl
lemma puPickupLoop_score (ppos : V2) (prad : ℚ) (pus : List PowerUp) : ∀ g : Game,
    (puPickupLoop ppos prad pus g).score = g.score := by
  induction pus with
  | nil => intro g; rfl
  | cons pu rest ih =>
    intro g
    unfold puPickupLoop
    split
    · exact (ih _).trans (apply_powerup_score pu.kind g)
    · exact ih g
lemma phasePowerups_score (env : Env) (dt : ℚ) (g : Game) :
    (phasePowerups env dt g).score = g.score := by
  unfold phasePowerups
  dsimp only
  split
  · exact puPickupLoop_score _ _ _ _
  · exact puPickupLoop_score _ _ _ _
lemma phaseBuffs_score (dt : ℚ) (g : Game) : (phaseBuffs dt g).score = g.score := rfl
lemma phaseShake_score (dt : ℚ) (g : Game) : (phaseShake dt g).score = g.score := by
  unfold phaseShake
  split <;> rfl
lemma phasePassive_score (dt : ℚ) (g : Game) :
    (phasePassive dt g).score = g.score + pyInt (20 * dt) := rfl

lemma applyReward_score_mono (env : Env) (t : ℚ) (cs : CombatState) (e : Enemy) :
    cs.score ≤ (applyReward env t cs e).score := by
  unfold applyReward BOSS_KILL_SCORE KILL_SCORE
  split <;> (dsimp only; omega)

lemma foldReward_score_mono (env : Env) (t : ℚ) (l : List Enemy) : ∀ cs : CombatState,
    cs.score ≤ (l.foldl (applyReward env t) cs).score := by
  induction l with
  | nil => intro cs; exact le_rfl
  | cons e rest ih =>
    intro cs
    exact le_trans (applyReward_score_mono env t cs e) (ih _)

lemma processBullet_score_mono (env : Env) (t : ℚ) (cs : CombatState) (b : Bullet) :
    cs.score ≤ (processBullet env t cs b).score := by
  unfold processBullet
  split
  · exact le_rfl
  split
  · split
    · exact le_rfl
    · exact le_rfl
  · dsimp only
    split
    · exact foldReward_score_mono env t _ _
    · exact foldReward_score_mono env t _ _

lemma foldBullets_score_mono (env : Env) (t : ℚ) (bs : List Bullet) : ∀ cs : CombatState,
    cs.score ≤ (bs.foldl (processBullet env t) cs).score := by
  induction bs with
  | nil => intro cs; exact le_rfl
  | cons b rest ih =>
    intro cs
    exact le_trans (processBullet_score_mono env t cs b) (ih _)

lemma phaseCombat_score_mono (env : Env) (g : Game) :
    g.score ≤ (phaseCombat env g).score :=
  foldBullets_score_mono env g.t g.bullets _

lemma phaseOrb_score_mono (env : Env) (g : Game) : g.score ≤ (phaseOrb env g).score := by
  unfold phaseOrb ORB_SCORE
  split
  · dsimp only
    omega
  · exact le_rfl

lemma pyInt_nonneg_of (q : ℚ) (h : 0 ≤ q) : 0 ≤ pyInt q := by
  unfold pyInt
  rw [if_pos h]
  exact Int.floor_nonneg.mpr h

/-- Claim C10: on every Playing-mode frame with the shop closed the score
moves by `int(20·dt)` plus a nonnegative event contribution (kills, orb),
regardless of events; the passive part is 0 exactly when `dt < 0.05` and at
least 1 when `dt ≥ 0.05` (so an event-free frame still strictly gains). -/
theorem C10_passive_score (env : Env) (dt : ℚ) (g : Game)
    (hshop : g.shop_open = false) (hdt : 0 ≤ dt) :
    (∃ ev : ℤ, 0 ≤ ev ∧
      (updatePlay env dt g).score = g.score + ev + pyInt (20 * dt)) ∧
    (dt < 1/20 → pyInt (20 * dt) = 0) ∧
    (1/20 ≤ dt → 1 ≤ pyInt (20 * dt)) := by
  have h20 : (0 : ℚ) ≤ 20 * dt := by positivity
  have hup : updatePlay env dt g = updatePlayOpen env dt g := by
    unfold updatePlay
    rw [if_neg (by simp [hshop])]
  have h1 : (updatePlayOpen env dt g).score =
      (phasePassive dt (phaseOrb env (preOrb env dt g))).score := by
    simp only [updatePlayOpen, phaseShake_score, phaseBuffs_score, phasePowerups_score,
      phaseBody_score]
  have h4 : g.score ≤ (preOrb env dt g).score := by
    have hx : (phaseBulletMove env dt (phaseFire env (phaseLevel
        (phasePlayer env dt g)))).score = g.score := by
      simp only [phaseBulletMove_score, phaseFire_score, phaseLevel_score, phasePlayer_score]
    calc g.score = (phaseBulletMove env dt (phaseFire env (phaseLevel
          (phasePlayer env dt g)))).score := hx.symm
      _ ≤ (phaseCombat env (phaseBulletMove env dt (phaseFire env (phaseLevel
          (phasePlayer env dt g))))).score := phaseCombat_score_mono _ _
      _ = (preOrb env dt g).score := by
          simp only [preOrb, phaseRamp_score, phaseBoss_score, phaseSpawn_score,
            phaseEnemies_score, phaseParticles_score]
  have h5 : (preOrb env dt g).score ≤ (phaseOrb env (preOrb env dt g)).score :=
    phaseOrb_score_mono _ _
  have hle : g.score + pyInt (20 * dt) ≤ (updatePlay env dt g).score := by
    rw [hup, h1, phasePassive_score]
    omega
  refine ⟨⟨(updatePlay env dt g).score - g.score - pyInt (20 * dt), by omega, by ring⟩,
    ?_, ?_⟩
  · intro hlt
    unfold pyInt
    rw [if_pos h20]
    rw [Int.floor_eq_zero_iff]
    constructor
    · exact h20
    · linarith
  · intro hge
    unfold pyInt
    rw [if_pos h20]
    rw [Int.le_floor]
    push_cast
    linarith

/-- Witness for C10 at a reset state, `dt = 1`: passive part is at least 1. -/
theorem C10_passive_score_witness :
    1 ≤ pyInt (20 * (1 : ℚ)) :=
  (C10_passive_score {} 1 (resetGame 0 0 1 ⟨⟨450, 300⟩, ORB_RADIUS⟩ 12) rfl
    (by norm_num)).2.2 (by norm_num)

/-! Kill counter, xp, level and orb preservation by the non-reward phases. -/

lemma playerHit_xp_level (p : Player) (l : ℤ) (st : GState) :
    (playerHit p l st).1.xp = p.xp ∧ (playerHit p l st).1.level = p.level := by
  unfold playerHit
  split <;> exact ⟨rfl, rfl⟩

lemma phasePlayer_kxlo (env : Env) (dt : ℚ) (g : Game) :
    (phasePlayer env dt g).kills = g.kills ∧ (phasePlayer env dt g).player.xp = g.player.xp ∧
    (phasePlayer env dt g).player.level = g.player.level ∧ (phasePlayer env dt g).orb = g.orb :=
  ⟨rfl, rfl, rfl, rfl⟩
lemma phaseLevel_kxlo (g : Game) :
    (phaseLevel g).kills = g.kills ∧ (phaseLevel g).player.xp = g.player.xp ∧
    (phaseLevel g).player.level = g.player.level ∧ (phaseLevel g).orb = g.orb :=
  ⟨rfl, rfl, rfl, rfl⟩
lemma phaseFire_kxlo (env : Env) (g : Game) :
    (phaseFire env g).kills = g.kills ∧ (phaseFire env g).player.xp = g.player.xp ∧
    (phaseFire env g).player.level = g.player.level ∧ (phaseFire env g).orb = g.orb := by
  unfold phaseFire
  split
  · exact ⟨rfl, rfl, rfl, rfl⟩
  split
  · exact ⟨rfl, rfl, rfl, rfl⟩
  · exact ⟨rfl, rfl, rfl, rfl⟩
lemma phaseBulletMove_kxlo (env : Env) (dt : ℚ) (g : Game) :
    (phaseBulletMove env dt g).kills = g.kills ∧
    (phaseBulletMove env dt g).player.xp = g.player.xp ∧
    (phaseBulletMove env dt g).player.level = g.player.level ∧
    (phaseBulletMove env dt g).orb = g.orb :=
  ⟨rfl, rfl, rfl, rfl⟩
lemma phaseParticles_kxlo (dt : ℚ) (g : Game) :
    (phaseParticles dt g).kills = g.kills ∧ (phaseParticles dt g).player.xp = g.player.xp ∧
    (phaseParticles dt g).player.level = g.player.level ∧ (phaseParticles dt g).orb = g.orb :=
  ⟨rfl, rfl, rfl, rfl⟩
lemma phaseEnemies_kxlo (env : Env) (dt : ℚ) (g : Game) :
    (phaseEnemies env dt g).kills = g.kills ∧ (phaseEnemies env dt g).player.xp = g.player.xp ∧
    (phaseEnemies env dt g).player.level = g.player.level ∧
    (phaseEnemies env dt g).orb = g.orb :=
  ⟨rfl, rfl, rfl, rfl⟩
lemma phaseSpawn_kxlo (env : Env) (dt : ℚ) (g : Game) :
    (phaseSpawn env dt g).kills = g.kills ∧ (phaseSpawn env dt g).player.xp = g.player.xp ∧
    (phaseSpawn env dt g).player.level = g.player.level ∧ (phaseSpawn env dt g).orb = g.orb := by
  unfold phaseSpawn
  dsimp only
  split <;> exact ⟨rfl, rfl, rfl, rfl⟩
lemma phaseBoss_kxlo (env : Env) (dt : ℚ) (g : Game) :
    (phaseBoss env dt g).kills = g.kills ∧ (phaseBoss env dt g).player.xp = g.player.xp ∧
    (phaseBoss env dt g).player.level = g.player.level ∧ (phaseBoss env dt g).orb = g.orb := by
  unfold phaseBoss
  dsimp only
  split <;> exact ⟨rfl, rfl, rfl, rfl⟩
lemma phaseRamp_kxlo (dt : ℚ) (g : Game) :
    (phaseRamp dt g).kills = g.kills ∧ (phaseRamp dt g).player.xp = g.player.xp ∧
    (phaseRamp dt g).player.level = g.player.level ∧ (phaseRamp dt g).orb = g.orb := by
  unfold phaseRamp
  dsimp only
  split <;> exact ⟨rfl, rfl, rfl, rfl⟩
lemma phasePassive_kxlo (dt : ℚ) (g : Game) :
    (phasePassive dt g).kills = g.kills ∧ (phasePassive dt g).player.xp = g.player.xp ∧
    (phasePassive dt g).player.level = g.player.level ∧ (phasePassive dt g).orb = g.orb :=
  ⟨rfl, rfl, rfl, rfl⟩
lemma phaseBody_kxlo (g : Game) :
    (phaseBody g).kills = g.kills ∧ (phaseBody g).player.xp = g.player.xp ∧
    (phaseBody g).player.level = g.player.level ∧ (phaseBody g).orb = g.orb := by
  unfold phaseBody
  split
  · split
    · have h := playerHit_xp_level g.player g.lives g.state
      exact ⟨rfl, h.1, h.2, rfl⟩
    · exact ⟨rfl, rfl, rfl, rfl⟩
  · exact ⟨rfl, rfl, rfl, rfl⟩
lemma apply_powerup_kxlo (k : PUType) (g : Game) :
    (apply_powerup k g).kills = g.kills ∧ (apply_powerup k g).player.xp = g.player.xp ∧
    (apply_powerup k g).player.level = g.player.level ∧ (apply_powerup k g).orb = g.orb := by
  cases k <;> exact ⟨rfl, rfl, rfl, rfl⟩
lemma puPickupLoop_kxlo (ppos : V2) (prad : ℚ) (pus : List PowerUp) : ∀ g : Game,
    (puPickupLoop ppos prad pus g).kills = g.kills ∧
    (puPickupLoop ppos prad pus g).player.xp = g.player.xp ∧
    (puPickupLoop ppos prad pus g).player.level = g.player.level ∧
    (puPickupLoop ppos prad pus g).orb = g.orb := by
  induction pus with
  | nil => intro g; exact ⟨rfl, rfl, rfl, rfl⟩
  | cons pu rest ih =>
    intro g
    unfold puPickupLoop
    split
    · have h1 := apply_powerup_kxlo pu.kind g
      have h2 := ih { apply_powerup pu.kind g with
        powerups := (apply_powerup pu.kind g).powerups.erase pu,
        shake := min 8 ((apply_powerup pu.kind g).shake + 3) }
      exact ⟨h2.1.trans h1.1, h2.2.1.trans h1.2.1, h2.2.2.1.trans h1.2.2.1,
             h2.2.2.2.trans h1.2.2.2⟩
    · exact ih g
lemma phasePowerups_kxlo (env : Env) (dt : ℚ) (g : Game) :
    (phasePowerups env dt g).kills = g.kills ∧
    (phasePowerups env dt g).player.xp = g.player.xp ∧
    (phasePowerups env dt g).player.level = g.player.level ∧
    (phasePowerups env dt g).orb = g.orb := by
  unfold phasePowerups
  dsimp only
  split
  · exact puPickupLoop_kxlo _ _ _ _
  · exact puPickupLoop_kxlo _ _ _ _
lemma phaseBuffs_kxlo (dt : ℚ) (g : Game) :
    (phaseBuffs dt g).kills = g.kills ∧ (phaseBuffs dt g).player.xp = g.player.xp ∧
    (phaseBuffs dt g).player.level = g.player.level ∧ (phaseBuffs dt g).orb = g.orb :=
  ⟨rfl, rfl, rfl, rfl⟩
lemma phaseShake_kxlo (dt : ℚ) (g : Game) :
    (phaseShake dt g).kills = g.kills ∧ (phaseShake dt g).player.xp = g.player.xp ∧
    (phaseShake dt g).player.level = g.player.level ∧ (phaseShake dt g).orb = g.orb := by
  unfold phaseShake
  split <;> exact ⟨rfl, rfl, rfl, rfl⟩
lemma phaseOrb_kills (env : Env) (g : Game) : (phaseOrb env g).kills = g.kills := by
  unfold phaseOrb
  split <;> rfl
lemma phaseCombat_orb (env : Env) (g : Game) : (phaseCombat env g).orb = g.orb := rfl

/-! The no-kill characterisation of the combat phase. -/

lemma applyReward_kills (env : Env) (t : ℚ) (cs : CombatState) (e : Enemy) :
    (applyReward env t cs e).kills = cs.kills + 1 := by
  unfold applyReward
  split <;> rfl

lemma foldReward_kills (env : Env) (t : ℚ) (l : List Enemy) : ∀ cs : CombatState,
    (l.foldl (applyReward env t) cs).kills = cs.kills + l.length := by
  induction l with
  | nil => intro cs; rfl
  | cons e rest ih =>
    intro cs
    rw [List.foldl_cons, ih, applyReward_kills, List.length_cons]
    omega

lemma processBullet_kills_mono (env : Env) (t : ℚ) (cs : CombatState) (b : Bullet) :
    cs.kills ≤ (processBullet env t cs b).kills := by
  unfold processBullet
  split
  · exact le_rfl
  split
  · split
    · exact le_rfl
    · exact le_rfl
  · dsimp only
    split
    · rw [foldReward_kills]
      dsimp only
      omega
    · rw [foldReward_kills]
      dsimp only
      omega

lemma foldBullets_kills_mono (env : Env) (t : ℚ) (bs : List Bullet) : ∀ cs : CombatState,
    cs.kills ≤ (bs.foldl (processBullet env t) cs).kills := by
  induction bs with
  | nil => intro cs; exact le_rfl
  | cons b rest ih =>
    intro cs
    exact le_trans (processBullet_kills_mono env t cs b) (ih _)

lemma processBullet_no_kill (env : Env) (t : ℚ) (cs : CombatState) (b : Bullet)
    (h : (processBullet env t cs b).kills = cs.kills) :
    (processBullet env t cs b).score = cs.score ∧
    (processBullet env t cs b).player.xp = cs.player.xp ∧
    (processBullet env t cs b).player.level = cs.player.level := by
  revert h
  unfold processBullet
  split
  · intro _; exact ⟨rfl, rfl, rfl⟩
  split
  · split
    · intro _
      have h := playerHit_xp_level cs.player cs.lives cs.state
      exact ⟨rfl, h.1, h.2⟩
    · intro _; exact ⟨rfl, rfl, rfl⟩
  · dsimp only
    split
    · intro h
      rw [foldReward_kills] at h
      dsimp only at h
      have hnil : (bulletSweep b.pos b.radius b.dmg b.pierce cs.enemies).killed = [] :=
        List.length_eq_zero.mp (by omega)
      rw [hnil]
      exact ⟨rfl, rfl, rfl⟩
    · intro h
      rw [foldReward_kills] at h
      dsimp only at h
      have hnil : (bulletSweep b.pos b.radius b.dmg b.pierce cs.enemies).killed = [] :=
        List.length_eq_zero.mp (by omega)
      rw [hnil]
      exact ⟨rfl, rfl, rfl⟩

lemma foldBullets_no_kill (env : Env) (t : ℚ) (bs : List Bullet) : ∀ cs : CombatState,
    (bs.foldl (processBullet env t) cs).kills = cs.kills →
    (bs.foldl (processBullet env t) cs).score = cs.score ∧
    (bs.foldl (processBullet env t) cs).player.xp = cs.player.xp ∧
    (bs.foldl (processBullet env t) cs).player.level = cs.player.level := by
  induction bs with
  | nil => intro cs _; exact ⟨rfl, rfl, rfl⟩
  | cons b rest ih =>
    intro cs h
    rw [List.foldl_cons] at h ⊢
    have h1 := processBullet_kills_mono env t cs b
    have h2 := foldBullets_kills_mono env t rest (processBullet env t cs b)
    have hstep : (processBullet env t cs b).kills = cs.kills := by omega
    have hrest := ih (processBullet env t cs b) (by omega)
    have hone := processBullet_no_kill env t cs b hstep
    exact ⟨hrest.1.trans hone.1, hrest.2.1.trans hone.2.1, hrest.2.2.trans hone.2.2⟩

lemma phaseCombat_no_kill (env : Env) (g : Game)
    (h : (phaseCombat env g).kills = g.kills) :
    (phaseCombat env g).score = g.score ∧
    (phaseCombat env g).player.xp = g.player.xp ∧
    (phaseCombat env g).player.level = g.player.level :=
  foldBullets_no_kill env g.t g.bullets _ h

lemma phaseCombat_kills_mono (env : Env) (g : Game) :
    g.kills ≤ (phaseCombat env g).kills := by
  unfold phaseCombat
  dsimp only
  exact foldBullets_kills_mono env g.t g.bullets
    ⟨g.enemies, g.player, g.lives, g.state, g.score, g.coins, g.kills, g.shake,
     g.boss_timer, g.particles, []⟩

lemma levelLoop_stop (fuel : ℕ) (p : Player) (h : p.xp < 100 * p.level) :
    levelLoop (fuel + 1) p = p := by
  unfold levelLoop
  rw [if_neg (by omega)]

/-- `gain_xp` below the level threshold only adds to the counter. -/
lemma gain_xp_no_level (p : Player) (n : ℕ) (h : p.xp + n < 100 * p.level) :
    (p.gain_xp n).xp = p.xp + n ∧ (p.gain_xp n).level = p.level := by
  unfold Player.gain_xp
  have h2 : p.xp + n + 2 = (p.xp + n + 1) + 1 := rfl
  rw [h2, levelLoop_stop]
  · exact ⟨rfl, rfl⟩
  · dsimp only
    omega

lemma pyInt_twenty_zero (dt : ℚ) (h0 : 0 ≤ dt) (h : dt < 1/20) :
    pyInt (20 * dt) = 0 := by
  unfold pyInt
  rw [if_pos (by positivity), Int.floor_eq_zero_iff]
  constructor
  · positivity
  · linarith

/-- The phases before the combat resolver keep score, kills, xp, level and
the orb fixed. -/
lemma preCombat_fields (env : Env) (dt : ℚ) (g : Game) :
    (phaseBulletMove env dt (phaseFire env (phaseLevel (phasePlayer env dt g)))).kills
      = g.kills ∧
    (phaseBulletMove env dt (phaseFire env (phaseLevel (phasePlayer env dt g)))).player.xp
      = g.player.xp ∧
    (phaseBulletMove env dt (phaseFire env (phaseLevel (phasePlayer env dt g)))).player.level
      = g.player.level ∧
    (phaseBulletMove env dt (phaseFire env (phaseLevel (phasePlayer env dt g)))).orb
      = g.orb ∧
    (phaseBulletMove env dt (phaseFire env (phaseLevel (phasePlayer env dt g)))).score
      = g.score := by
  refine ⟨?_, ?_, ?_, ?_, ?_⟩
  · rw [(phaseBulletMove_kxlo env dt _).1, (phaseFire_kxlo env _).1, (phaseLevel_kxlo _).1,
      (phasePlayer_kxlo env dt g).1]
  · rw [(phaseBulletMove_kxlo env dt _).2.1, (phaseFire_kxlo env _).2.1,
      (phaseLevel_kxlo _).2.1, (phasePlayer_kxlo env dt g).2.1]
  · rw [(phaseBulletMove_kxlo env dt _).2.2.1, (phaseFire_kxlo env _).2.2.1,
      (phaseLevel_kxlo _).2.2.1, (phasePlayer_kxlo env dt g).2.2.1]
  · rw [(phaseBulletMove_kxlo env dt _).2.2.2, (phaseFire_kxlo env _).2.2.2,
      (phaseLevel_kxlo _).2.2.2, (phasePlayer_kxlo env dt g).2.2.2]
  · rw [phaseBulletMove_score, phaseFire_score, phaseLevel_score, phasePlayer_score]

/-- The phases between the combat resolver and the orb check keep score,
kills, xp, level and the orb fixed. -/
lemma postCombat_fields (env : Env) (dt : ℚ) (g : Game) :
    (phaseRamp dt (phaseBoss env dt (phaseSpawn env dt (phaseEnemies env dt
      (phaseParticles dt g))))).kills = g.kills ∧
    (phaseRamp dt (phaseBoss env dt (phaseSpawn env dt (phaseEnemies env dt
      (phaseParticles dt g))))).player.xp = g.player.xp ∧
    (phaseRamp dt (phaseBoss env dt (phaseSpawn env dt (phaseEnemies env dt
      (phaseParticles dt g))))).player.level = g.player.level ∧
    (phaseRamp dt (phaseBoss env dt (phaseSpawn env dt (phaseEnemies env dt
      (phaseParticles dt g))))).orb = g.orb ∧
    (phaseRamp dt (phaseBoss env dt (phaseSpawn env dt (phaseEnemies env dt
      (phaseParticles dt g))))).score = g.score := by
  refine ⟨?_, ?_, ?_, ?_, ?_⟩
  · rw [(phaseRamp_kxlo dt _).1, (phaseBoss_kxlo env dt _).1, (phaseSpawn_kxlo env dt _).1,
      (phaseEnemies_kxlo env dt _).1, (phaseParticles_kxlo dt g).1]
  · rw [(phaseRamp_kxlo dt _).2.1, (phaseBoss_kxlo env dt _).2.1,
      (phaseSpawn_kxlo env dt _).2.1, (phaseEnemies_kxlo env dt _).2.1,
      (phaseParticles_kxlo dt g).2.1]
  · rw [(phaseRamp_kxlo dt _).2.2.1, (phaseBoss_kxlo env dt _).2.2.1,
      (phaseSpawn_kxlo env dt _).2.2.1, (phaseEnemies_kxlo env dt _).2.2.1,
      (phaseParticles_kxlo dt g).2.2.1]
  · rw [(phaseRamp_kxlo dt _).2.2.2, (phaseBoss_kxlo env dt _).2.2.2,
      (phaseSpawn_kxlo env dt _).2.2.2, (phaseEnemies_kxlo env dt _).2.2.2,
      (phaseParticles_kxlo dt g).2.2.2]
  · rw [phaseRamp_score, phaseBoss_score, phaseSpawn_score, phaseEnemies_score,
      phaseParticles_score]

/-- The phases after the passive tick keep score, kills, xp, level and the
orb fixed. -/
lemma postPassive_fields (env : Env) (dt : ℚ) (g : Game) :
    (phaseShake dt (phaseBuffs dt (phasePowerups env dt (phaseBody g)))).kills
      = g.kills ∧
    (phaseShake dt (phaseBuffs dt (phasePowerups env dt (phaseBody g)))).player.xp
      = g.player.xp ∧
    (phaseShake dt (phaseBuffs dt (phasePowerups env dt (phaseBody g)))).player.level
      = g.player.level ∧
    (phaseShake dt (phaseBuffs dt (phasePowerups env dt (phaseBody g)))).orb
      = g.orb ∧
    (phaseShake dt (phaseBuffs dt (phasePowerups env dt (phaseBody g)))).score
      = g.score := by
  refine ⟨?_, ?_, ?_, ?_, ?_⟩
  · rw [(phaseShake_kxlo dt _).1, (phaseBuffs_kxlo dt _).1, (phasePowerups_kxlo env dt _).1,
      (phaseBody_kxlo g).1]
  · rw [(phaseShake_kxlo dt _).2.1, (phaseBuffs_kxlo dt _).2.1,
      (phasePowerups_kxlo env dt _).2.1, (phaseBody_kxlo g).2.1]
  · rw [(phaseShake_kxlo dt _).2.2.1, (phaseBuffs_kxlo dt _).2.2.1,
      (phasePowerups_kxlo env dt _).2.2.1, (phaseBody_kxlo g).2.2.1]
  · rw [(phaseShake_kxlo dt _).2.2.2, (phaseBuffs_kxlo dt _).2.2.2,
      (phasePowerups_kxlo env dt _).2.2.2, (phaseBody_kxlo g).2.2.2]
  · rw [phaseShake_score, phaseBuffs_score, phasePowerups_score, phaseBody_score]

/-- Claim C9 (amended): a frame of a Playing state (shop closed,
`0 ≤ dt < 0.05` so the passive tick `int(20·dt)` is 0) in which the orb
check fires and no kill happens awards exactly `ORB_SCORE` score and
`XP_ORB` xp (below the level-up threshold) and respawns the single orb at
the environment's fresh position; hence three such frames award exactly
`3 × ORB_SCORE` and `3 × XP_ORB`, and the orb count is structurally one
(`Game.orb` is the only orb).  Without the `dt < 0.05` restriction the
claim fails: the passive tick also raises the score. -/
theorem C9_orb_pickup (env : Env) (dt : ℚ) (g : Game)
    (hshop : g.shop_open = false) (hdt : 0 ≤ dt) (hsmall : dt < 1/20)
    (hpick : circle_collision (preOrb env dt { g with t := g.t + dt }).player.pos
      (preOrb env dt { g with t := g.t + dt }).player.radius
      (preOrb env dt { g with t := g.t + dt }).orb.pos
      (preOrb env dt { g with t := g.t + dt }).orb.radius = true)
    (hnokill : (stepFrame env dt g).kills = g.kills)
    (hxp : g.player.xp + XP_ORB < 100 * g.player.level) :
    (stepFrame env dt g).score = g.score + ORB_SCORE ∧
    (stepFrame env dt g).player.xp = g.player.xp + XP_ORB ∧
    (stepFrame env dt g).player.level = g.player.level ∧
    (stepFrame env dt g).orb = env.newOrb := by
  set g1 : Game := { g with t := g.t + dt } with hg1
  set X : Game := phaseBulletMove env dt (phaseFire env (phaseLevel (phasePlayer env dt g1)))
    with hX
  set A : Game := preOrb env dt g1 with hA
  have hsf : stepFrame env dt g =
      phaseShake dt (phaseBuffs dt (phasePowerups env dt (phaseBody
        (phasePassive dt (phaseOrb env A))))) := by
    unfold stepFrame updatePlay
    rw [if_neg (by simp [hg1, hshop])]
    rfl
  have hXfields := preCombat_fields env dt g1
  have hACX : A = phaseRamp dt (phaseBoss env dt (phaseSpawn env dt (phaseEnemies env dt
      (phaseParticles dt (phaseCombat env X))))) := rfl
  have hAfields := postCombat_fields env dt (phaseCombat env X)
  -- the kill counter is globally unchanged, hence the combat phase killed nothing
  have hkills : (phaseCombat env X).kills = X.kills := by
    have h1 : (stepFrame env dt g).kills = A.kills := by
      rw [hsf, (postPassive_fields env dt _).1, (phasePassive_kxlo dt _).1, phaseOrb_kills]
    have h2 : A.kills = (phaseCombat env X).kills := by rw [hACX]; exact hAfields.1
    have h3 : X.kills = g.kills := by rw [hXfields.1]
    rw [h1, h2] at hnokill
    rw [hnokill, h3]
  have hC := phaseCombat_no_kill env X hkills
  have hAscore : A.score = g.score := by
    rw [hACX, hAfields.2.2.2.2, hC.1, hXfields.2.2.2.2]
  have hAxp : A.player.xp = g.player.xp := by
    rw [hACX, hAfields.2.1, hC.2.1, hXfields.2.1]
  have hAlevel : A.player.level = g.player.level := by
    rw [hACX, hAfields.2.2.1, hC.2.2, hXfields.2.2.1]
  have hAorb : A.orb = g.orb := by
    rw [hACX, hAfields.2.2.2.1, phaseCombat_orb, hXfields.2.2.2.1]
  have hOrbEq : phaseOrb env A =
      { A with
        score := A.score + ORB_SCORE
        player := A.player.gain_xp XP_ORB
        orb := env.newOrb
        shake := min 8 (A.shake + 4) } := by
    unfold phaseOrb
    rw [if_pos hpick]
  have hgain := gain_xp_no_level A.player XP_ORB (by rw [hAxp, hAlevel]; exact hxp)
  have hpz : pyInt (20 * dt) = 0 := pyInt_twenty_zero dt hdt hsmall
  refine ⟨?_, ?_, ?_, ?_⟩
  · rw [hsf, (postPassive_fields env dt _).2.2.2.2, phasePassive_score, hpz, hOrbEq]
    dsimp only
    rw [hAscore]
    ring
  · rw [hsf, (postPassive_fields env dt _).2.1, (phasePassive_kxlo dt _).2.1, hOrbEq]
    dsimp only
    rw [hgain.1, hAxp]
  · rw [hsf, (postPassive_fields env dt _).2.2.1, (phasePassive_kxlo dt _).2.2.1, hOrbEq]
    dsimp only
    rw [hgain.2, hAlevel]
  · rw [hsf, (postPassive_fields env dt _).2.2.2.1, (phasePassive_kxlo dt _).2.2.2, hOrbEq]

/-! Concrete fresh run for C9: player and orb both at the arena centre, so
the (stationary) player picks the orb up every frame, and every
environment draw is the default (the orb respawns in place). -/

lemma V2.add_def (a b : V2) : a + b = ⟨a.x + b.x, a.y + b.y⟩ := rfl
lemma V2.sub_def (a b : V2) : a - b = ⟨a.x - b.x, a.y - b.y⟩ := rfl
lemma V2.smul_def (v : V2) (c : ℚ) : v.smul c = ⟨v.x * c, v.y * c⟩ := rfl

set_option maxHeartbeats 64000000 in
set_option maxRecDepth 200000 in
/-- Claim C9 as stated is false: from a fresh run, three frames of
`dt = 0.1` each pick up the orb (xp rises by exactly `3 × XP_ORB` with no
kill), yet the score rises by 36, not `3 × ORB_SCORE = 30` — the passive
`int(20·dt) = 2` per-frame tick also feeds the score. -/
theorem C9_counterexample :
    freshG.score = 0 ∧ freshG.player.xp = 0 ∧ freshG.kills = 0 ∧
    (stepFrame {} (1/10) (stepFrame {} (1/10) (stepFrame {} (1/10) freshG))).player.xp
      = 3 * XP_ORB ∧
    (stepFrame {} (1/10) (stepFrame {} (1/10) (stepFrame {} (1/10) freshG))).kills = 0 ∧
    (stepFrame {} (1/10) (stepFrame {} (1/10) (stepFrame {} (1/10) freshG))).score = 36 ∧
    (36 : ℤ) ≠ 3 * ORB_SCORE := by
  norm_num [stepFrame, updatePlay, updatePlayOpen, preOrb, phasePlayer, phaseLevel,
    phaseFire, phaseBulletMove, phaseCombat, phaseParticles, phaseEnemies, phaseSpawn,
    phaseBoss, phaseRamp, phaseOrb, phasePassive, phaseBody, phasePowerups, phaseBuffs,
    phaseShake, freshG, resetGame, Player.update, clamp, circle_collision, dist_sq,
    pyInt, Player.gain_xp, levelLoop, hasBoss, spawnEnemy, spawnBoss, nearestEnemyDir,
    nearestEnemy, puPickupLoop, V2.lensq, V2.smul_def, V2.add_def, V2.sub_def,
    Player.speed, processBullet, enemyFrame, enemyKindStep, Enemy.update, Bullet.update,
    Bullet.alive, bulletSweep, applyReward, Particle.update, Particle.alive, puKindOf,
    apply_powerup, playerHit, mapIdxFrom, ORB_SCORE, ORB_RADIUS, PLAYER_RADIUS,
    PLAYER_FRICTION, WIDTH, HEIGHT, POWERUP_DURATION, SHIELD_RECHARGE_RATE,
    ENEMY_SPAWN_COOLDOWN, DIFF_SPAWN_MULT, ENEMY_RADIUS, ENEMY_BASE_SPEED, XP_ORB,
    LIVES_START, BULLET_RADIUS, BULLET_SPEED, BULLET_LIFETIME, FIRE_COOLDOWN,
    ENEMY_BULLET_SPEED, POWERUP_RADIUS]

set_option maxHeartbeats 64000000 in
set_option maxRecDepth 200000 in
/-- Witness for C9 at the first frame of the concrete fresh run,
`dt = 0.01`. -/
theorem C9_orb_pickup_witness :
    (stepFrame {} (1/100) freshG).score = freshG.score + ORB_SCORE :=
  (C9_orb_pickup {} (1/100) freshG rfl (by norm_num) (by norm_num)
    (by
      norm_num [preOrb, phasePlayer, phaseLevel, phaseFire, phaseBulletMove,
        phaseCombat, phaseParticles, phaseEnemies, phaseSpawn, phaseBoss, phaseRamp,
        freshG, resetGame, Player.update, clamp, circle_collision, dist_sq,
        hasBoss, spawnEnemy, spawnBoss, nearestEnemyDir, nearestEnemy, V2.lensq,
        V2.smul_def, V2.add_def, V2.sub_def, Player.speed, processBullet, enemyFrame,
        enemyKindStep, Enemy.update, Bullet.update, Bullet.alive, bulletSweep,
        applyReward, Particle.update, Particle.alive, mapIdxFrom, ORB_SCORE,
        ORB_RADIUS, PLAYER_RADIUS, PLAYER_FRICTION, WIDTH, HEIGHT, POWERUP_DURATION,
        SHIELD_RECHARGE_RATE, ENEMY_SPAWN_COOLDOWN, DIFF_SPAWN_MULT, ENEMY_RADIUS,
        ENEMY_BASE_SPEED, LIVES_START, BULLET_RADIUS, BULLET_SPEED, BULLET_LIFETIME,
        FIRE_COOLDOWN, ENEMY_BULLET_SPEED])
    (by
      norm_num [stepFrame, updatePlay, updatePlayOpen, preOrb, phasePlayer, phaseLevel,
        phaseFire, phaseBulletMove, phaseCombat, phaseParticles, phaseEnemies,
        phaseSpawn, phaseBoss, phaseRamp, phaseOrb, phasePassive, phaseBody,
        phasePowerups, phaseBuffs, phaseShake, freshG, resetGame, Player.update, clamp,
        circle_collision, dist_sq, pyInt, Player.gain_xp, levelLoop, hasBoss,
        spawnEnemy, spawnBoss, nearestEnemyDir, nearestEnemy, puPickupLoop, V2.lensq,
        V2.smul_def, V2.add_def, V2.sub_def, Player.speed, processBullet, enemyFrame,
        enemyKindStep, Enemy.update, Bullet.update, Bullet.alive, bulletSweep,
        applyReward, Particle.update, Particle.alive, puKindOf, apply_powerup,
        playerHit, mapIdxFrom, ORB_SCORE, ORB_RADIUS, PLAYER_RADIUS, PLAYER_FRICTION,
        WIDTH, HEIGHT, POWERUP_DURATION, SHIELD_RECHARGE_RATE, ENEMY_SPAWN_COOLDOWN,
        DIFF_SPAWN_MULT, ENEMY_RADIUS, ENEMY_BASE_SPEED, XP_ORB, LIVES_START,
        BULLET_RADIUS, BULLET_SPEED, BULLET_LIFETIME, FIRE_COOLDOWN,
        ENEMY_BULLET_SPEED, POWERUP_RADIUS])
    (by decide)).1

end NeonDodge
